import Mathlib

/-!
# HelmholtzAMRLevelOp

A shallow embedding of `HelmholtzAMRLevelOp.H`, the operator
`(alpha I + beta Laplacian)(phi) = rho` over an AMR hierarchy, together with
theorems about its control flow and data flow.

Conventions of the embedding.

* `Real` of the source (a floating-point type) is modelled in exact rational
  arithmetic.  A C++ `int` is an integer; the `int` arithmetic of `define`
  (the threshold product, the size of the domain box, the refined domain) is
  32-bit: `wrapInt` reduces its result to the range of `int`.  Signed overflow
  is undefined in the source language; the wrap-around is what the usual
  two's-complement targets do, and the theorems that compare with the
  mathematical values assume that the values are in range (`inIntRange`).
* `SpaceDim` is the parameter `D`; the template parameter `Order` and the build
  mode (`NDEBUG`, which decides whether `CH_assert` is compiled in) are fields
  of `Env`.
* Member functions that are declared in the header but defined elsewhere
  (`applyOpI`, `residualI`, `reflux`, `levelJacobi`, `levelGSRB`,
  `cacheOpDiag`, `restrict`, `localMaxNorm`, `fillDomainBdryGhosts`,
  `fillCoarseFineGhostsNonHomo`) and the communication primitives of the grid
  library are fields of `Env`: every theorem holds for all of them.  A
  non-const member function receives the members of the operator and returns
  them; a const one only reads them.  The two flux kernels and the constant
  `isCellAvgd` are the fields of `FluxKernels`.
* Every call of such a function is recorded in the `log` of the `Run` record,
  so that "is called", "is called once" and "is called before" are statements
  about a list of events.
* Arguments passed by reference are passed and returned by value: distinct
  parameters are distinct objects.
-/

namespace Chombo

/-- Scalar type of the source, in exact arithmetic. -/
abbrev Real := ℚ

/-! ## Index space: `IntVect`, `Box`, `ProblemDomain`, `DisjointBoxLayout` -/

/-- The value a 32-bit `int` holds after a computation whose mathematical result
is `x`: `x` itself when it is in range, wrapped around otherwise. -/
def wrapInt (x : Int) : Int := (x + 2147483648) % 4294967296 - 2147483648

/-- The integer `x` is representable as a 32-bit `int`. -/
def inIntRange (x : Int) : Prop := -2147483648 ≤ x ∧ x < 2147483648

instance instDecidableInIntRange (x : Int) : Decidable (inIntRange x) := by
  unfold inIntRange
  infer_instance

/-- Integer vector with one entry per space direction. -/
abbrev IntVect (D : Nat) := Fin D → Int

/-- The vector `IntVect::Unit`. -/
def IntVect.Unit {D : Nat} : IntVect D := fun _ => 1

/-- The vector `IntVect::Zero`. -/
def IntVect.Zero {D : Nat} : IntVect D := fun _ => 0

/-- Comparison `a <= b` of two `IntVect`s: true when it holds in every direction. -/
def IntVect.le {D : Nat} (a b : IntVect D) : Bool := decide (∀ i, a i ≤ b i)

/-- Scalar multiple `s * v`. -/
def IntVect.scale {D : Nat} (s : Int) (v : IntVect D) : IntVect D := fun i => s * v i

/-- Cell-centred rectangular region, given by its two corner cells. -/
structure Box (D : Nat) where
  smallEnd : IntVect D
  bigEnd : IntVect D

/-- Membership of a cell in a box. -/
def Box.contains {D : Nat} (b : Box D) (p : IntVect D) : Prop :=
  ∀ i, b.smallEnd i ≤ p i ∧ p i ≤ b.bigEnd i

instance Box.instDecidableContains {D : Nat} (b : Box D) (p : IntVect D) :
    Decidable (b.contains p) := by
  unfold Box.contains
  infer_instance

/-- A box is empty when some direction has no cell. -/
def Box.isEmpty {D : Nat} (b : Box D) : Bool := !decide (∀ i, b.smallEnd i ≤ b.bigEnd i)

/-- Number of cells in every direction. -/
def Box.size {D : Nat} (b : Box D) : IntVect D := fun i => b.bigEnd i - b.smallEnd i + 1

/-- Intersection `a &= b`. -/
def Box.intersect {D : Nat} (a b : Box D) : Box D :=
  { smallEnd := fun i => max (a.smallEnd i) (b.smallEnd i)
    bigEnd := fun i => min (a.bigEnd i) (b.bigEnd i) }

/-- Coarsening of a cell-centred box: both corners are divided by the ratio,
rounding towards minus infinity. -/
def Box.coarsen {D : Nat} (b : Box D) (r : Int) : Box D :=
  { smallEnd := fun i => Int.fdiv (b.smallEnd i) r
    bigEnd := fun i => Int.fdiv (b.bigEnd i) r }

/-- Refinement of a cell-centred box. -/
def Box.refine {D : Nat} (b : Box D) (r : Int) : Box D :=
  { smallEnd := fun i => b.smallEnd i * r
    bigEnd := fun i => (b.bigEnd i + 1) * r - 1 }

/-- Growth of a box by `g i` cells at both ends of direction `i`. -/
def Box.grow {D : Nat} (b : Box D) (g : IntVect D) : Box D :=
  { smallEnd := fun i => b.smallEnd i - g i
    bigEnd := fun i => b.bigEnd i + g i }

/-- Growth `b.grow(idir, n)` of a box by `n` cells at both ends of the one
direction `idir`; a negative `n` shrinks the box. -/
def Box.growDir {D : Nat} (b : Box D) (idir : Fin D) (n : Int) : Box D :=
  { smallEnd := fun i => if i = idir then b.smallEnd i - n else b.smallEnd i
    bigEnd := fun i => if i = idir then b.bigEnd i + n else b.bigEnd i }

/-- The box `surroundingNodes(b, dir)` of the faces of the cells of `b` in
direction `dir`: it has one index more than `b` has cells in that direction.
The centring of a box is not recorded. -/
def Box.surroundingNodes {D : Nat} (b : Box D) (dir : Fin D) : Box D :=
  { smallEnd := b.smallEnd
    bigEnd := fun i => if i = dir then b.bigEnd i + 1 else b.bigEnd i }

/-- A box is coarsenable by `r` when refining its coarsening gives it back. -/
def Box.coarsenable {D : Nat} (b : Box D) (r : Int) : Bool :=
  decide (∀ i, ((b.coarsen r).refine r).smallEnd i = b.smallEnd i ∧
    ((b.coarsen r).refine r).bigEnd i = b.bigEnd i)

/-- The canonical empty box. -/
def Box.empty {D : Nat} : Box D := { smallEnd := IntVect.Unit, bigEnd := IntVect.Zero }

/-- Problem domain: its box and the periodic directions. -/
structure ProblemDomain (D : Nat) where
  domainBox : Box D
  isPeriodic : Fin D → Bool

/-- Refinement of a problem domain. -/
def ProblemDomain.refine {D : Nat} (d : ProblemDomain D) (r : Int) : ProblemDomain D :=
  { d with domainBox := d.domainBox.refine r }

/-- A box whose corners were computed in 32-bit `int` arithmetic. -/
def Box.wrapInt {D : Nat} (b : Box D) : Box D :=
  { smallEnd := fun i => Chombo.wrapInt (b.smallEnd i)
    bigEnd := fun i => Chombo.wrapInt (b.bigEnd i) }

/-- Layout of one level: the list of its patches' boxes. -/
abbrev DisjointBoxLayout (D : Nat) := List (Box D)

/-- The layout `coarsen(out, dbl, r)`: every box coarsened. -/
def DisjointBoxLayout.coarsen {D : Nat} (dbl : DisjointBoxLayout D) (r : Int) :
    DisjointBoxLayout D :=
  dbl.map (fun b => b.coarsen r)

/-- A layout is coarsenable by `r` when each of its boxes is. -/
def DisjointBoxLayout.coarsenable {D : Nat} (dbl : DisjointBoxLayout D) (r : Int) : Bool :=
  dbl.all (fun b => b.coarsenable r)

/-- Index of the patch that owns cell `p`: the first box of the layout that
contains it (the only one, when the boxes are disjoint). -/
def DisjointBoxLayout.owner {D : Nat} : DisjointBoxLayout D → IntVect D → Option Nat
  | [], _ => none
  | b :: bs, p => if b.contains p then some 0 else (DisjointBoxLayout.owner bs p).map (· + 1)

/-! ## Data: `FArrayBox`, `LevelData`, `LevelDataOps` -/

/-- Array of `nComp` values per cell of `box`.  `data` is only meaningful on the
cells of `box`. -/
structure FArrayBox (D : Nat) where
  box : Box D
  nComp : Nat
  data : IntVect D → Nat → Real

/-- Copy `a_src` into the array on the intersection of the two boxes, all components. -/
def FArrayBox.copy {D : Nat} (a : FArrayBox D) (a_src : FArrayBox D) : FArrayBox D :=
  { a with data := fun p c =>
      if a.box.contains p ∧ a_src.box.contains p ∧ c < a.nComp then a_src.data p c
      else a.data p c }

/-- Set the components `[a_start, a_start + a_n)` to `a_val` on the cells of `a_box`. -/
def FArrayBox.setVal {D : Nat} (a : FArrayBox D) (a_val : Real) (a_box : Box D)
    (a_start a_n : Nat) : FArrayBox D :=
  { a with data := fun p c =>
      if a_box.contains p ∧ a_start ≤ c ∧ c < a_start + a_n then a_val else a.data p c }

/-- Scaling `a *= m` of every value of the array. -/
def FArrayBox.mult {D : Nat} (a : FArrayBox D) (m : Real) : FArrayBox D :=
  { a with data := fun p c =>
      if a.box.contains p ∧ c < a.nComp then a.data p c * m else a.data p c }

/-- The array `a = A*X + B*Y` on the cells of its box. -/
def FArrayBox.axby {D : Nat} (a x y : FArrayBox D) (a_a a_b : Real) : FArrayBox D :=
  { a with data := fun p c =>
      if a.box.contains p ∧ c < a.nComp then a_a * x.data p c + a_b * y.data p c
      else a.data p c }

/-- The call `a.resize(b, n)`: the array is reallocated on box `b` with `n`
components and holds the unspecified values `a_uninit`. -/
def FArrayBox.resize {D : Nat} (_a : FArrayBox D) (a_uninit : IntVect D → Nat → Real)
    (b : Box D) (n : Nat) : FArrayBox D :=
  { box := b, nComp := n, data := a_uninit }

/-- Field on one level: a layout, a component count, a ghost width and one array
per patch.  The array of patch `i` lives on the box of the patch grown by the
ghost vector. -/
structure LevelData (D : Nat) where
  isDefined : Bool
  disjointBoxLayout : DisjointBoxLayout D
  nComp : Nat
  ghostVect : IntVect D
  data : Nat → IntVect D → Nat → Real

/-- Valid box `box(dit)` of patch `i`. -/
def LevelData.validBox {D : Nat} (ld : LevelData D) (i : Nat) : Box D :=
  ld.disjointBoxLayout.getD i Box.empty

/-- The array `ld[dit]` of patch `i`. -/
def LevelData.fab {D : Nat} (ld : LevelData D) (i : Nat) : FArrayBox D :=
  { box := (ld.validBox i).grow ld.ghostVect, nComp := ld.nComp, data := ld.data i }

/-- A loop `for (dit = grids.dataIterator(); dit.ok(); ++dit)` that replaces
`ld[dit]` by `f dit ld[dit]`. -/
def LevelData.forEachOn {D : Nat} (ld : LevelData D) (grids : DisjointBoxLayout D)
    (f : Nat → FArrayBox D → FArrayBox D) : LevelData D :=
  { ld with data := fun i => if i < grids.length then (f i (ld.fab i)).data else ld.data i }

/-- The call `ld.define(dbl, ncomp, ghost)`: freshly allocated arrays hold the
unspecified values `a_uninit`. -/
def LevelData.define {D : Nat} (a_uninit : Nat → IntVect D → Nat → Real)
    (dbl : DisjointBoxLayout D) (ncomp : Nat) (ghost : IntVect D) : LevelData D :=
  { isDefined := true, disjointBoxLayout := dbl, nComp := ncomp, ghostVect := ghost,
    data := a_uninit }

/-- The call `src.copyTo(dest)`: every valid cell of `dest` that is a valid cell
of `src` receives the values `src` has there, for all components of `src`;
nothing is stated about (and nothing is written to) the other cells. -/
def LevelData.copyTo {D : Nat} (src dest : LevelData D) : LevelData D :=
  { dest with data := fun i p c =>
      if i < dest.disjointBoxLayout.length ∧ (dest.validBox i).contains p ∧ c < src.nComp then
        match src.disjointBoxLayout.owner p with
        | some j => src.data j p c
        | none => dest.data i p c
      else dest.data i p c }

/-- Value of component `c` of the field at a valid cell: the value stored by the
patch that owns the cell.  There is no value outside the valid cells and for a
component the field does not have. -/
def LevelData.valueAt {D : Nat} (ld : LevelData D) (p : IntVect D) (c : Nat) : Option Real :=
  if c < ld.nComp then (ld.disjointBoxLayout.owner p).map (fun i => ld.data i p c) else none

/-- Two fields of the same shape hold the same values on the valid cells. -/
def LevelData.sameOnValid {D : Nat} (x y : LevelData D) : Prop :=
  x.disjointBoxLayout = y.disjointBoxLayout ∧ x.nComp = y.nComp ∧ x.ghostVect = y.ghostVect ∧
    ∀ i p c, x.disjointBoxLayout.owner p = some i → c < x.nComp → x.data i p c = y.data i p c

/-- The call `LevelDataOps::create(a_lhs, a_rhs)`: `a_lhs` is defined with the
layout, component count and ghost vector of `a_rhs`. -/
def LevelDataOps.create {D : Nat} (a_uninit : Nat → IntVect D → Nat → Real)
    (a_rhs : LevelData D) : LevelData D :=
  LevelData.define a_uninit a_rhs.disjointBoxLayout a_rhs.nComp a_rhs.ghostVect

/-- The call `LevelDataOps::assign(a_lhs, a_rhs)`, which is `a_rhs.copyTo(a_lhs)`. -/
def LevelDataOps.assign {D : Nat} (a_lhs a_rhs : LevelData D) : LevelData D :=
  a_rhs.copyTo a_lhs

/-- The call `LevelDataOps::axby(a_lhs, a_x, a_y, a, b)`: patch by patch,
`a_lhs = a*a_x + b*a_y`. -/
def LevelDataOps.axby {D : Nat} (a_lhs a_x a_y : LevelData D) (a_a a_b : Real) :
    LevelData D :=
  a_lhs.forEachOn a_lhs.disjointBoxLayout (fun i f => f.axby (a_x.fab i) (a_y.fab i) a_a a_b)

/-! ## The operator: members, collaborators, events -/

/-- Handle of a boundary-condition object (`BCP`). -/
structure BoundaryCondition where
  id : Nat
  deriving DecidableEq

/-- Handle of an exchange copier. -/
structure Copier where
  id : Nat
  deriving DecidableEq

/-- Handle of a coarse-fine region descriptor. -/
structure CFRegion where
  id : Nat
  deriving DecidableEq

/-- Handle of another level's operator (`AMRLevelOp<LevelData<F> >*` when not null). -/
structure AMRLevelOpRef where
  id : Nat
  deriving DecidableEq

/-- Arguments a coarse-fine interpolator (`CFI`) was defined with; `flags` are
the trailing boolean arguments of the call, in order. -/
structure CoarseFineInterp (D : Nat) where
  fineGrids : DisjointBoxLayout D
  coarseGrids : DisjointBoxLayout D
  domain : ProblemDomain D
  homogeneous : Bool
  polyDegree : Int
  refRatio : Int
  nGhosts : Int
  nesting : Int
  flags : List Bool

/-- Arguments the flux register was defined with. -/
structure LevelFluxRegister (D : Nat) where
  fineGrids : DisjointBoxLayout D
  coarseGrids : DisjointBoxLayout D
  fineDomain : ProblemDomain D
  refRatio : Int
  nComps : Int

/-- Data members of `HelmholtzAMRLevelOp<F, Order>`.  An interpolator or flux
register that has not been defined is `none`. -/
structure HelmholtzAMRLevelOp (D : Nat) where
  m_alpha : Real
  m_beta : Real
  m_dx : Real
  m_domain : ProblemDomain D
  m_use2ndOrderSmoother : Bool
  m_diag : LevelData D
  m_bc : BoundaryCondition
  m_cfregion : CFRegion
  m_exchangeCopier : Copier
  m_nonHomoInterp : Option (CoarseFineInterp D)
  m_homoInterp : Option (CoarseFineInterp D)
  m_levfluxreg : Option (LevelFluxRegister D)
  m_grids : DisjointBoxLayout D
  m_coarsenedMGrids : DisjointBoxLayout D
  m_refToCoarser : Int
  m_refToFiner : Int

/-- Calls recorded in the log of a run. -/
inductive Event where
  | cacheOpDiag
  | levelJacobi
  | levelGSRB
  | applyOpI (a_homogeneous : Bool)
  | residualI (a_homogeneous : Bool)
  | reflux
  | restrict (a_refRatio : Int)
  | localMaxNorm
  | fillCoarseFineGhostsNonHomo
  | fillDomainBdryGhosts (a_homo : Bool)
  | bcFillGhostCells (a_homo : Bool)
  | exchange
  | exchangeNoOverlap
  | fluxRegisterDefine
  | interpDefine (a_homogeneous : Bool)
  deriving DecidableEq, Repr

/-- Everything the header uses without defining it: the template parameter
`Order`, the build mode, the contents of freshly allocated arrays, the member
functions defined outside the header and the communication primitives. -/
structure Env (D : Nat) where
  Order : Nat
  NDEBUG : Bool
  uninitialised : Nat → IntVect D → Nat → Real
  applyOpI : HelmholtzAMRLevelOp D → LevelData D → LevelData D → Bool →
    LevelData D × LevelData D × HelmholtzAMRLevelOp D
  residualI : HelmholtzAMRLevelOp D → LevelData D → LevelData D → LevelData D → Bool →
    LevelData D × LevelData D × HelmholtzAMRLevelOp D
  reflux : HelmholtzAMRLevelOp D → LevelData D → LevelData D → LevelData D →
    Option AMRLevelOpRef → LevelData D × HelmholtzAMRLevelOp D
  levelJacobi : HelmholtzAMRLevelOp D → LevelData D → LevelData D →
    LevelData D × HelmholtzAMRLevelOp D
  levelGSRB : HelmholtzAMRLevelOp D → LevelData D → LevelData D →
    LevelData D × HelmholtzAMRLevelOp D
  cacheOpDiag : HelmholtzAMRLevelOp D → LevelData D → HelmholtzAMRLevelOp D
  restrict : HelmholtzAMRLevelOp D → LevelData D → LevelData D → Int →
    LevelData D × HelmholtzAMRLevelOp D
  localMaxNorm : HelmholtzAMRLevelOp D → LevelData D → Real × HelmholtzAMRLevelOp D
  fillCoarseFineGhostsNonHomo : HelmholtzAMRLevelOp D → LevelData D → LevelData D → LevelData D
  fillDomainBdryGhosts : HelmholtzAMRLevelOp D → LevelData D → Bool →
    LevelData D × HelmholtzAMRLevelOp D
  bcFillGhostCells : BoundaryCondition → LevelData D → Real → Bool → LevelData D
  exchange : LevelData D → LevelData D
  exchangeNoOverlap : LevelData D → Copier → LevelData D

/-- State of a run: the operator's members and the calls made so far. -/
structure Run (D : Nat) where
  op : HelmholtzAMRLevelOp D
  log : List Event

/-- Whether `CH_assert(cond)` lets the execution continue: the check is compiled
out when `NDEBUG` is set, and aborts on a false condition otherwise. -/
def CH_assert {D : Nat} (env : Env D) (cond : Bool) : Bool := env.NDEBUG || cond

namespace HelmholtzAMRLevelOp

/-! ### Static constants -/

/-- The constant `s_exchangeMode = 0`. -/
def s_exchangeMode : Int := 0

/-- The constant `s_relaxMode = 0; //(Order==2? 1 : 0)` (point Jacobi : 0; GSRB : 1). -/
def s_relaxMode (_Order : Nat) : Int := 0

/-- The constant `s_minCoarsestDomainSize = 8`. -/
def s_minCoarsestDomainSize : Int := 8

/-- The constant `s_nGhosts = Order/2`. -/
def s_nGhosts (Order : Nat) : Int := ((Order / 2 : Nat) : Int)

/-! ### Member functions defined outside the header, with logging -/

/-- Call of `cacheOpDiag(a_e)`. -/
def cacheOpDiag {D : Nat} (env : Env D) (r : Run D) (a_e : LevelData D) : Run D :=
  { op := env.cacheOpDiag r.op a_e, log := r.log ++ [Event.cacheOpDiag] }

/-- Call of `levelJacobi(a_phi, a_rhs)`. -/
def levelJacobi {D : Nat} (env : Env D) (r : Run D) (a_phi a_rhs : LevelData D) :
    LevelData D × Run D :=
  ((env.levelJacobi r.op a_phi a_rhs).1,
    { op := (env.levelJacobi r.op a_phi a_rhs).2, log := r.log ++ [Event.levelJacobi] })

/-- Call of `levelGSRB(a_phi, a_rhs)`. -/
def levelGSRB {D : Nat} (env : Env D) (r : Run D) (a_phi a_rhs : LevelData D) :
    LevelData D × Run D :=
  ((env.levelGSRB r.op a_phi a_rhs).1,
    { op := (env.levelGSRB r.op a_phi a_rhs).2, log := r.log ++ [Event.levelGSRB] })

/-- Result of a call that writes `lhs` and may fill the ghost cells of `phi`. -/
structure OpResult (D : Nat) where
  lhs : LevelData D
  phi : LevelData D
  run : Run D

/-- Call of `applyOpI(a_lhs, a_phi, a_homogeneous)`. -/
def applyOpI {D : Nat} (env : Env D) (r : Run D) (a_lhs a_phi : LevelData D)
    (a_homogeneous : Bool) : OpResult D :=
  { lhs := (env.applyOpI r.op a_lhs a_phi a_homogeneous).1
    phi := (env.applyOpI r.op a_lhs a_phi a_homogeneous).2.1
    run := { op := (env.applyOpI r.op a_lhs a_phi a_homogeneous).2.2
             log := r.log ++ [Event.applyOpI a_homogeneous] } }

/-- Call of `residualI(a_lhs, a_phi, a_rhs, a_homogeneous)`. -/
def residualI {D : Nat} (env : Env D) (r : Run D) (a_lhs a_phi a_rhs : LevelData D)
    (a_homogeneous : Bool) : OpResult D :=
  { lhs := (env.residualI r.op a_lhs a_phi a_rhs a_homogeneous).1
    phi := (env.residualI r.op a_lhs a_phi a_rhs a_homogeneous).2.1
    run := { op := (env.residualI r.op a_lhs a_phi a_rhs a_homogeneous).2.2
             log := r.log ++ [Event.residualI a_homogeneous] } }

/-- Call of `reflux(a_phiFine, a_phi, a_residual, a_finerOp)`. -/
def reflux {D : Nat} (env : Env D) (r : Run D) (a_phiFine a_phi a_residual : LevelData D)
    (a_finerOp : Option AMRLevelOpRef) : LevelData D × Run D :=
  ((env.reflux r.op a_phiFine a_phi a_residual a_finerOp).1,
    { op := (env.reflux r.op a_phiFine a_phi a_residual a_finerOp).2
      log := r.log ++ [Event.reflux] })

/-- Call of `restrict(a_phi, a_phiFine, a_refRatio)`. -/
def restrict {D : Nat} (env : Env D) (r : Run D) (a_phi a_phiFine : LevelData D)
    ( a_refRatio : Int) : LevelData D × Run D :=
  ((env.restrict r.op a_phi a_phiFine a_refRatio).1,
    { op := (env.restrict r.op a_phi a_phiFine a_refRatio).2
      log := r.log ++ [Event.restrict a_refRatio] })

/-- Call of `localMaxNorm(a_x)`. -/
def localMaxNorm {D : Nat} (env : Env D) (r : Run D) (a_x : LevelData D) : Real × Run D :=
  ((env.localMaxNorm r.op a_x).1,
    { op := (env.localMaxNorm r.op a_x).2, log := r.log ++ [Event.localMaxNorm] })

/-- Call of the const member `fillCoarseFineGhostsNonHomo(a_phi, phiCrs)`, which
fills the coarse-fine ghost cells of `a_phi`. -/
def fillCoarseFineGhostsNonHomo {D : Nat} (env : Env D) (r : Run D)
    (a_phi phiCrs : LevelData D) : LevelData D × Run D :=
  (env.fillCoarseFineGhostsNonHomo r.op a_phi phiCrs,
    { r with log := r.log ++ [Event.fillCoarseFineGhostsNonHomo] })

/-- Call of `fillDomainBdryGhosts(phi, a_homo)`. -/
def fillDomainBdryGhosts {D : Nat} (env : Env D) (r : Run D) (phi : LevelData D)
    (a_homo : Bool) : LevelData D × Run D :=
  ((env.fillDomainBdryGhosts r.op phi a_homo).1,
    { op := (env.fillDomainBdryGhosts r.op phi a_homo).2
      log := r.log ++ [Event.fillDomainBdryGhosts a_homo] })

/-! ### `relax` and `preCond` -/

/-- The loop `for (int i = 0; i < a_iterations; i++) switch (s_relaxMode) ...`
of `relax`, with `n` iterations left. -/
def relaxLoop {D : Nat} (env : Env D) (a_residual : LevelData D) :
    Nat → LevelData D → Run D → Except String (LevelData D × Run D)
  | 0, a_e, r => Except.ok (a_e, r)
  | n + 1, a_e, r =>
    if s_relaxMode env.Order = 0 then
      relaxLoop env a_residual n
        (levelJacobi env (cacheOpDiag env r a_e) a_e a_residual).1
        (levelJacobi env (cacheOpDiag env r a_e) a_e a_residual).2
    else if s_relaxMode env.Order = 1 then
      relaxLoop env a_residual n (levelGSRB env r a_e a_residual).1
        (levelGSRB env r a_e a_residual).2
    else
      Except.error "unrecognized relaxation mode"

/-- The member function `relax(a_e, a_residual, a_iterations)`. -/
def relax {D : Nat} (env : Env D) (r : Run D) (a_e a_residual : LevelData D)
    (a_iterations : Int) : Except String (LevelData D × Run D) :=
  if r.op.m_alpha = 1 ∧ r.op.m_beta = 0 then
    Except.ok (a_residual.copyTo a_e, r)
  else
    relaxLoop env a_residual a_iterations.toNat a_e r

/-- The calls made by `n` iterations of point Jacobi. -/
def jacobiEvents : Nat → List Event
  | 0 => []
  | n + 1 => [Event.cacheOpDiag, Event.levelJacobi] ++ jacobiEvents n

/-- Diagonal coefficient of the operator as the specification states it:
`alpha - 2*dimension*beta/h^2` for order 2 and `alpha - 30*dimension*beta/(12*h^2)`
for order 4. -/
def diagonalCoefficient (order dimension : Nat) (alpha beta h : Real) : Real :=
  if order = 2 then alpha - 2 * dimension * beta / h ^ 2
  else alpha - 30 * dimension * beta / (12 * h ^ 2)

/-- The multiplier computed by `preCond`: the inverse of the diagonal of the
operator for `Order` 2 and 4, and 0 otherwise. -/
def preCondMult {D : Nat} (env : Env D) (op : HelmholtzAMRLevelOp D) : Real :=
  if env.Order = 2 then
    1 / (op.m_alpha - 2 * (D : Real) * op.m_beta / (op.m_dx * op.m_dx))
  else if env.Order = 4 then
    1 / (op.m_alpha - 30 * (D : Real) * op.m_beta / 12 / (op.m_dx * op.m_dx))
  else 0

/-- The loop of `preCond` that copies `a_rhs` into `a_phi` and scales it. -/
def preCondInit {D : Nat} (a_phi a_rhs : LevelData D) (mult : Real) : LevelData D :=
  a_phi.forEachOn a_phi.disjointBoxLayout (fun i f => (f.copy (a_rhs.fab i)).mult mult)

/-- The member function `preCond(a_phi, a_rhs)`. -/
def preCond {D : Nat} (env : Env D) (r : Run D) (a_phi a_rhs : LevelData D) :
    Except String (LevelData D × Run D) :=
  if CH_assert env (decide (a_phi.nComp = a_rhs.nComp)) then
    relax env r (preCondInit a_phi a_rhs (preCondMult env r.op)) a_rhs 2
  else
    Except.error "CH_assert(a_phi.nComp() == a_rhs.nComp())"

/-! ### Linear-operator functions -/

/-- The member function `create(a_lhs, a_rhs)`. -/
def create {D : Nat} (env : Env D) (a_rhs : LevelData D) : LevelData D :=
  LevelDataOps.create env.uninitialised a_rhs

/-- The member function `assignLocal(a_lhs, a_rhs)`: patch by patch,
`a_lhs[dit].copy(a_rhs[dit])`. -/
def assignLocal {D : Nat} (a_lhs a_rhs : LevelData D) : LevelData D :=
  a_lhs.forEachOn a_lhs.disjointBoxLayout (fun i f => f.copy (a_rhs.fab i))

/-- The member function `axby(a_lhs, a_x, a_y, a_a, a_b)`. -/
def axby {D : Nat} (a_lhs a_x a_y : LevelData D) (a_a a_b : Real) : LevelData D :=
  LevelDataOps.axby a_lhs a_x a_y a_a a_b

/-- The member function `norm(a_x, a_ord)`, which ignores `a_ord`. -/
def norm {D : Nat} (env : Env D) (r : Run D) (a_x : LevelData D) (_a_ord : Int) :
    Real × Run D :=
  localMaxNorm env r a_x

/-! ### AMR functions -/

/-- The member function `refToCoarser()`. -/
def refToCoarser {D : Nat} (r : Run D) : Int := r.op.m_refToCoarser

/-- The member function `AMROperator(a_LofPhi, a_phiFine, a_phi, a_phiCoarse,
a_homoPhysBC, a_finerOp)`.  The result holds `a_LofPhi` and `a_phi`. -/
def AMROperator {D : Nat} (env : Env D) (r : Run D)
    (a_LofPhi a_phiFine a_phi a_phiCoarse : LevelData D) (a_homoPhysBC : Bool)
    (a_finerOp : Option AMRLevelOpRef) : Except String (OpResult D) :=
  if CH_assert env a_finerOp.isSome then
    let filled := fillCoarseFineGhostsNonHomo env r a_phi a_phiCoarse
    let applied := applyOpI env filled.2 a_LofPhi filled.1 a_homoPhysBC
    if a_phiFine.isDefined then
      let refluxed := reflux env applied.run a_phiFine applied.phi applied.lhs a_finerOp
      Except.ok { lhs := refluxed.1, phi := applied.phi, run := refluxed.2 }
    else
      Except.ok applied
  else
    Except.error "CH_assert(a_finerOp != NULL)"

/-- The member function `AMROperatorNC(a_LofPhi, a_phiFine, a_phi, a_homoPhysBC,
a_finerOp)`. -/
def AMROperatorNC {D : Nat} (env : Env D) (r : Run D)
    (a_LofPhi a_phiFine a_phi : LevelData D) (a_homoPhysBC : Bool)
    (a_finerOp : Option AMRLevelOpRef) : Except String (OpResult D) :=
  if CH_assert env a_finerOp.isSome then
    let applied := applyOpI env r a_LofPhi a_phi a_homoPhysBC
    if a_phiFine.isDefined then
      let refluxed := reflux env applied.run a_phiFine applied.phi applied.lhs a_finerOp
      Except.ok { lhs := refluxed.1, phi := applied.phi, run := refluxed.2 }
    else
      Except.ok applied
  else
    Except.error "CH_assert(a_finerOp != NULL)"

/-- The member function `AMROperatorNF(a_LofPhi, a_phi, a_phiCoarse, a_homoPhysBC)`. -/
def AMROperatorNF {D : Nat} (env : Env D) (r : Run D)
    (a_LofPhi a_phi a_phiCoarse : LevelData D) (a_homoPhysBC : Bool) : OpResult D :=
  applyOpI env (fillCoarseFineGhostsNonHomo env r a_phi a_phiCoarse).2 a_LofPhi
    (fillCoarseFineGhostsNonHomo env r a_phi a_phiCoarse).1 a_homoPhysBC

/-- The member function `AMRResidual(a_residual, a_phiFine, a_phi, a_phiCoarse,
a_rhs, a_homogeneousPhysBC, a_finerOp)`.  The result holds `a_residual` and `a_phi`. -/
def AMRResidual {D : Nat} (env : Env D) (r : Run D)
    (a_residual a_phiFine a_phi a_phiCoarse a_rhs : LevelData D) (a_homogeneousPhysBC : Bool)
    (a_finerOp : Option AMRLevelOpRef) : Except String (OpResult D) :=
  match AMROperator env r a_residual a_phiFine a_phi a_phiCoarse a_homogeneousPhysBC
      a_finerOp with
  | Except.error e => Except.error e
  | Except.ok res => Except.ok { res with lhs := axby res.lhs res.lhs a_rhs (-1) 1 }

/-- The member function `AMRResidualNC(a_residual, a_phiFine, a_phi, a_rhs,
a_homoPhysBC, a_finerOp)`. -/
def AMRResidualNC {D : Nat} (env : Env D) (r : Run D)
    (a_residual a_phiFine a_phi a_rhs : LevelData D) (a_homoPhysBC : Bool)
    (a_finerOp : Option AMRLevelOpRef) : Except String (OpResult D) :=
  match AMROperatorNC env r a_residual a_phiFine a_phi a_homoPhysBC a_finerOp with
  | Except.error e => Except.error e
  | Except.ok res => Except.ok { res with lhs := axby res.lhs res.lhs a_rhs (-1) 1 }

/-- The member function `AMRResidualNF(a_residual, a_phi, a_phiCoarse, a_rhs,
a_homoPhysBC)`. -/
def AMRResidualNF {D : Nat} (env : Env D) (r : Run D)
    (a_residual a_phi a_phiCoarse a_rhs : LevelData D) (a_homoPhysBC : Bool) : OpResult D :=
  residualI env (fillCoarseFineGhostsNonHomo env r a_phi a_phiCoarse).2 a_residual
    (fillCoarseFineGhostsNonHomo env r a_phi a_phiCoarse).1 a_rhs a_homoPhysBC

/-- Result of `AMRRestrictS`: every field it received by reference. -/
structure RestrictResult (D : Nat) where
  resCoarse : LevelData D
  residual : LevelData D
  correction : LevelData D
  scratch : LevelData D
  run : Run D

/-- The member function `AMRRestrictS(a_resCoarse, a_residual, a_correction,
a_coarseCorrection, a_scratch, a_skip_res)`. -/
def AMRRestrictS {D : Nat} (env : Env D) (r : Run D)
    (a_resCoarse a_residual a_correction a_coarseCorrection a_scratch : LevelData D)
    (a_skip_res : Bool) : RestrictResult D :=
  if !a_skip_res then
    let res := AMRResidualNF env r a_scratch a_correction a_coarseCorrection a_residual true
    let coarse := restrict env res.run a_resCoarse res.lhs res.run.op.m_refToCoarser
    { resCoarse := coarse.1, residual := a_residual, correction := res.phi,
      scratch := res.lhs, run := coarse.2 }
  else
    let scratch := assignLocal a_scratch a_residual
    let coarse := restrict env r a_resCoarse scratch r.op.m_refToCoarser
    { resCoarse := coarse.1, residual := a_residual, correction := a_correction,
      scratch := scratch, run := coarse.2 }

/-- The member function `AMRRestrict(a_resCrse, a_residual, a_correction,
a_crseCorrection, a_skip_res)`, whose scratch field is the local `r` made by
`create(r, a_residual)`. -/
def AMRRestrict {D : Nat} (env : Env D) (r : Run D)
    (a_resCrse a_residual a_correction a_crseCorrection : LevelData D)
    (a_skip_res : Bool) : RestrictResult D :=
  AMRRestrictS env r a_resCrse a_residual a_correction a_crseCorrection
    (create env a_residual) a_skip_res

/-- Body of the inner loop of `AMRNorm` for one fine box: the part of the coarse
array under the coarsened fine box is set to zero. -/
def AMRNorm.zeroUnder {D : Nat} ( a_refRat : Int) (ncomp : Nat) (coarTempFAB : FArrayBox D)
    (fineBox : Box D) : FArrayBox D :=
  if !(coarTempFAB.box.intersect (fineBox.coarsen a_refRat)).isEmpty then
    coarTempFAB.setVal 0 (coarTempFAB.box.intersect (fineBox.coarsen a_refRat)) 0 ncomp
  else
    coarTempFAB

/-- The field `coarTemp` whose norm `AMRNorm` returns: a copy of `a_coarResid`,
zeroed under the finer grids when `a_fineResid` is defined. -/
def AMRNorm.coarTemp {D : Nat} (env : Env D) (a_coarResid a_fineResid : LevelData D)
    ( a_refRat : Int) : LevelData D :=
  if a_fineResid.isDefined then
    (LevelDataOps.assign (LevelDataOps.create env.uninitialised a_coarResid)
        a_coarResid).forEachOn a_coarResid.disjointBoxLayout
      (fun _ coarTempFAB =>
        a_fineResid.disjointBoxLayout.foldl
          (AMRNorm.zeroUnder a_refRat
            (LevelDataOps.assign (LevelDataOps.create env.uninitialised a_coarResid)
              a_coarResid).nComp)
          coarTempFAB)
  else
    LevelDataOps.assign (LevelDataOps.create env.uninitialised a_coarResid) a_coarResid

/-- Coarse cell `p` is covered by the finer level: `a_fineResid` is defined and
`p` lies in `coarsen(B, a_refRat)` for some box `B` of its layout. -/
def AMRNorm.covered {D : Nat} (a_fineResid : LevelData D) ( a_refRat : Int) (p : IntVect D) :
    Prop :=
  a_fineResid.isDefined = true ∧
    ∃ B ∈ a_fineResid.disjointBoxLayout, (B.coarsen a_refRat).contains p

instance AMRNorm.instDecidableCovered {D : Nat} (a_fineResid : LevelData D) ( a_refRat : Int)
    (p : IntVect D) : Decidable (AMRNorm.covered a_fineResid a_refRat p) := by
  unfold AMRNorm.covered
  infer_instance

/-- The field the specification takes the norm of: equal to `a_coarResid`, except
that it is zero on every cell of a coarse patch's array box that is covered by
the finer level. -/
def AMRNorm.zeroCovered {D : Nat} (a_coarResid a_fineResid : LevelData D) ( a_refRat : Int) :
    LevelData D :=
  { a_coarResid with data := fun i p c =>
      if i < a_coarResid.disjointBoxLayout.length ∧ (a_coarResid.fab i).box.contains p ∧
          c < a_coarResid.nComp ∧ AMRNorm.covered a_fineResid a_refRat p then 0
      else a_coarResid.data i p c }

/-- The member function `AMRNorm(a_coarResid, a_fineResid, a_refRat, a_ord)`. -/
def AMRNorm {D : Nat} (env : Env D) (r : Run D) (a_coarResid a_fineResid : LevelData D)
    ( a_refRat : Int) (a_ord : Int) : Real × Run D :=
  norm env r (AMRNorm.coarTemp env a_coarResid a_fineResid a_refRat) a_ord

/-! ### Ghost filling -/

/-- The member function `fillInterPatchGhosts(phi)`. -/
def fillInterPatchGhosts {D : Nat} (env : Env D) (r : Run D) (phi : LevelData D) :
    Except String (LevelData D × Run D) :=
  if s_exchangeMode = 0 then
    Except.ok (env.exchange phi, { r with log := r.log ++ [Event.exchange] })
  else if s_exchangeMode = 1 then
    Except.ok (env.exchangeNoOverlap phi r.op.m_exchangeCopier,
      { r with log := r.log ++ [Event.exchangeNoOverlap] })
  else
    Except.error "exchangeMode"

/-- The member function `fillNonCoarseFineGhosts(phi, a_homo)`. -/
def fillNonCoarseFineGhosts {D : Nat} (env : Env D) (r : Run D) (phi : LevelData D)
    (a_homo : Bool) : Except String (LevelData D × Run D) :=
  match fillInterPatchGhosts env r phi with
  | Except.error e => Except.error e
  | Except.ok (phi1, r1) => Except.ok (fillDomainBdryGhosts env r1 phi1 a_homo)

/-- The member function `fillNonCoarseFineGhosts_FluxBox(phi, a_homo)`. -/
def fillNonCoarseFineGhosts_FluxBox {D : Nat} (env : Env D) (r : Run D) (phi : LevelData D)
    (a_homo : Bool) : Except String (LevelData D × Run D) :=
  match fillInterPatchGhosts env r phi with
  | Except.error e => Except.error e
  | Except.ok (phi1, r1) =>
    Except.ok (env.bcFillGhostCells r1.op.m_bc phi1 r1.op.m_dx a_homo,
      { r1 with log := r1.log ++ [Event.bcFillGhostCells a_homo] })

/-! ### The two `define` functions -/

/-- The `define` function for `AMRLevelOp`.  A null `a_gridsFiner` or
`a_gridsCoarser` is `none`; dereferencing a null `a_gridsCoarser` is an error.
The threshold `m_refToCoarser*s_minCoarsestDomainSize`, the size of the domain
box and the refined domain are 32-bit `int` values. -/
def define {D : Nat} (env : Env D) (r : Run D) (a_grids : DisjointBoxLayout D)
    (a_gridsFiner a_gridsCoarser : Option (DisjointBoxLayout D)) (a_dxLevel : Real)
    ( a_refRatio : Int) (a_refRatioFiner : Int) (a_domain : ProblemDomain D)
    (a_bc : BoundaryCondition) (a_exchange : Copier) (a_cfregion : CFRegion)
    (a_nComps : Int) : Except String (Run D) :=
  let op1 : HelmholtzAMRLevelOp D :=
    { r.op with
      m_dx := a_dxLevel, m_refToCoarser := a_refRatio, m_refToFiner := a_refRatioFiner,
      m_domain := a_domain, m_bc := a_bc, m_exchangeCopier := a_exchange,
      m_cfregion := a_cfregion, m_grids := a_grids }
  -- define flux register if the finer grids exists
  let r2 : Run D :=
    match a_gridsFiner with
    | some gridsFiner =>
      { op := { op1 with
                m_levfluxreg := some
                  { fineGrids := gridsFiner, coarseGrids := a_grids,
                    fineDomain :=
                      { op1.m_domain.refine op1.m_refToFiner with
                        domainBox :=
                          (op1.m_domain.refine op1.m_refToFiner).domainBox.wrapInt },
                    refRatio := op1.m_refToFiner, nComps := a_nComps } }
        log := r.log ++ [Event.fluxRegisterDefine] }
    | none => { op := op1, log := r.log }
  let singleLevel : Bool := a_gridsFiner.isNone && a_gridsCoarser.isNone
  -- the product and the size are computed in `int`
  let tmp : IntVect D :=
    IntVect.scale (wrapInt (r2.op.m_refToCoarser * s_minCoarsestDomainSize)) IntVect.Unit
  let smallDomain : Bool :=
    IntVect.le (fun d => wrapInt (r2.op.m_domain.domainBox.size d)) tmp
  -- do no bother with coarse-fine interpolation if either is true
  if singleLevel || smallDomain then
    Except.ok r2
  else
    let polyDegree : Int := env.Order
    let fillCorner : Bool := false
    let nesting : Int := s_nGhosts env.Order
    let homoNesting : Int := s_nGhosts env.Order
    let useZeroForHomo : Bool := true
    let ghostsOnly : Bool := true
    let insistOnAccuracy : Bool := false
    -- Two cases for the coarse-fine interpolators
    let coarse_grids : Option (DisjointBoxLayout D) :=
      if r2.op.m_refToCoarser = 1 then
        some (DisjointBoxLayout.coarsen a_grids r2.op.m_refToFiner)
      else
        a_gridsCoarser
    -- refToFiner is preferred
    let ratio : Int :=
      if r2.op.m_refToFiner = 1 then r2.op.m_refToCoarser else r2.op.m_refToFiner
    match coarse_grids with
    | none => Except.error "null a_gridsCoarser dereferenced"
    | some cg =>
      Except.ok
        { op := { r2.op with
                  m_homoInterp := some
                    { fineGrids := a_grids, coarseGrids := cg, domain := a_domain,
                      homogeneous := true, polyDegree := polyDegree, refRatio := ratio,
                      nGhosts := s_nGhosts env.Order, nesting := homoNesting,
                      flags := [fillCorner, ghostsOnly, insistOnAccuracy, useZeroForHomo] }
                  m_nonHomoInterp := some
                    { fineGrids := a_grids, coarseGrids := cg, domain := a_domain,
                      homogeneous := false, polyDegree := polyDegree, refRatio := ratio,
                      nGhosts := s_nGhosts env.Order, nesting := nesting,
                      flags := [true] } }
          log := r2.log ++ [Event.interpDefine true, Event.interpDefine false] }

/-- The `define` function for `MGLevelOp`, which has no finer or coarser AMR level. -/
def define_MGLevelOp {D : Nat} (r : Run D) (a_grids : DisjointBoxLayout D) (a_dx : Real)
    (a_domain : ProblemDomain D) (a_bc : BoundaryCondition) (a_exchange : Copier)
    (a_cfregion : CFRegion) : Run D :=
  { r with
    op := { r.op with
            m_bc := a_bc, m_domain := a_domain, m_dx := a_dx, m_refToCoarser := 2,
            m_refToFiner := 2, m_exchangeCopier := a_exchange, m_cfregion := a_cfregion,
            m_grids := a_grids } }

/-- The test `m_domain.domainBox().size() <= tmp` of `define` fails: in some
direction the domain box has more cells than the threshold
`a_refRatio*s_minCoarsestDomainSize`, both as the `int` values the code holds. -/
def define.exceedsThreshold {D : Nat} ( a_refRatio : Int) (a_domain : ProblemDomain D) : Prop :=
  ∃ d, wrapInt (a_refRatio * s_minCoarsestDomainSize) < wrapInt (a_domain.domainBox.size d)

/-! ### Coarsened fields -/

/-- The member function `createCoarser(a_coarse, a_fine, a_ghosted)`.  The result
holds the newly defined `a_coarse`. -/
def createCoarser {D : Nat} (env : Env D) (r : Run D) (a_fine : LevelData D)
    (_a_ghosted : Bool) : Except String (LevelData D × Run D) :=
  if CH_assert env (a_fine.disjointBoxLayout.coarsenable 2) then
    -- multigrid, so coarsen by 2
    let r1 : Run D :=
      if r.op.m_coarsenedMGrids.length = 0 then
        { r with op := { r.op with
                         m_coarsenedMGrids := a_fine.disjointBoxLayout.coarsen 2 } }
      else r
    Except.ok
      (LevelData.define env.uninitialised r1.op.m_coarsenedMGrids a_fine.nComp
        a_fine.ghostVect, r1)
  else
    Except.error "CH_assert(a_fine.disjointBoxLayout().coarsenable(2))"

/-- The member function `createCoarsened(a_lhs, a_rhs, a_refRat)`.  The result
holds the newly defined `a_lhs`. -/
def createCoarsened {D : Nat} (env : Env D) (r : Run D) (a_rhs : LevelData D)
    ( a_refRat : Int) : Except String (LevelData D × Run D) :=
  if CH_assert env (a_rhs.disjointBoxLayout.coarsenable a_refRat) then
    if a_refRat = 2 then
      let r1 : Run D :=
        if r.op.m_coarsenedMGrids.length = 0 then
          { r with op := { r.op with
                           m_coarsenedMGrids := a_rhs.disjointBoxLayout.coarsen 2 } }
        else r
      Except.ok
        (LevelData.define env.uninitialised r1.op.m_coarsenedMGrids a_rhs.nComp
          a_rhs.ghostVect, r1)
    else
      Except.ok
        (LevelData.define env.uninitialised (a_rhs.disjointBoxLayout.coarsen a_refRat)
          a_rhs.nComp a_rhs.ghostVect, r)
  else
    Except.error "CH_assert(dbl.coarsenable(a_refRat))"

/-! ### Face fluxes -/

/-- What the two protected `getFlux` functions use without defining it: the
compile-time constant `isCellAvgd` and the two flux kernels, which receive the
flux array, the data, the edge box, the scale and the direction and return the
flux array. -/
structure FluxKernels (D : Nat) where
  isCellAvgd : Bool
  REFLUXGETFLUX4 : FArrayBox D → FArrayBox D → Box D → Real → Fin D → FArrayBox D
  REFLUXGETFLUX2 : FArrayBox D → FArrayBox D → Box D → Real → Fin D → FArrayBox D

/-- The function `getFlux(a_flux, a_data, a_edgebox, a_dir, a_ref)`, in which the
edge box is passed in.  The direction is a `Fin D`, so that the two assertions
`a_dir >= 0` and `a_dir < SpaceDim` hold. -/
def getFlux_edgebox {D : Nat} (env : Env D) (k : FluxKernels D) (op : HelmholtzAMRLevelOp D)
    (a_flux a_data : FArrayBox D) (a_edgebox : Box D) (a_dir : Fin D) (a_ref : Int) :
    Except String (FArrayBox D) :=
  if !CH_assert env k.isCellAvgd then
    Except.error "CH_assert(isCellAvgd)"
  else if !CH_assert env (!a_data.box.isEmpty) then
    Except.error "CH_assert(!a_data.box().isEmpty())"
  else if !CH_assert env (!a_edgebox.isEmpty) then
    -- if this fails, the data box was too small (one cell wide, in fact)
    Except.error "CH_assert(!a_edgebox.isEmpty())"
  else if env.Order = 4 then
    Except.ok (k.REFLUXGETFLUX4 a_flux a_data a_edgebox (op.m_beta * a_ref / op.m_dx) a_dir)
  else if env.Order = 2 then
    Except.ok (k.REFLUXGETFLUX2 a_flux a_data a_edgebox (op.m_beta * a_ref / op.m_dx) a_dir)
  else
    Except.error "wrong Order!"

/-- The edge box of `getFlux(a_flux, a_data, a_dir, a_ref)`:
`surroundingNodes(a_data.box(), a_dir)` after `grow(a_dir, -s_nGhosts)`. -/
def getFlux.edgebox {D : Nat} (Order : Nat) (a_data : FArrayBox D) (a_dir : Fin D) : Box D :=
  (a_data.box.surroundingNodes a_dir).growDir a_dir (-(s_nGhosts Order))

/-- The function `getFlux(a_flux, a_data, a_dir, a_ref)`, which computes the edge
box itself. -/
def getFlux {D : Nat} (env : Env D) (k : FluxKernels D) (op : HelmholtzAMRLevelOp D)
    (a_flux a_data : FArrayBox D) (a_dir : Fin D) (a_ref : Int) :
    Except String (FArrayBox D) :=
  -- if this fails, the data box is too small (one cell wide, in fact)
  if CH_assert env (!(getFlux.edgebox env.Order a_data a_dir).isEmpty) then
    getFlux_edgebox env k op
      (a_flux.resize (env.uninitialised 0) (getFlux.edgebox env.Order a_data a_dir)
        a_data.nComp)
      a_data (getFlux.edgebox env.Order a_data a_dir) a_dir a_ref
  else
    Except.error "CH_assert(!edgebox.isEmpty())"

end HelmholtzAMRLevelOp

/-! ## Concrete instances used to instantiate the theorems -/

namespace Example

/-- Cubic box of the cells `lo..hi` in every direction. -/
def box (D : Nat) (lo hi : Int) : Box D := { smallEnd := fun _ => lo, bigEnd := fun _ => hi }

/-- Two-patch layout `[0..3] [4..7]`. -/
def grids (D : Nat) : DisjointBoxLayout D := [box D 0 3, box D 4 7]

/-- Field on `grids` with one component, one ghost cell and the value
`v + i` on patch `i`. -/
def field (D : Nat) (v : Real) : LevelData D :=
  { isDefined := true, disjointBoxLayout := grids D, nComp := 1, ghostVect := IntVect.Unit,
    data := fun i _ _ => v + i }

/-- The field `field 5` with the value 100 written to the cells `4..5` of the
first direction. -/
def fieldWithBump (D : Nat) : LevelData (D + 1) :=
  { isDefined := true, disjointBoxLayout := grids (D + 1), nComp := 1, ghostVect := IntVect.Unit,
    data := fun i p _ => if 4 ≤ p 0 ∧ p 0 ≤ 5 then 100 else 5 + i }

/-- Finer field on the single patch `[8..11]`. -/
def fineField (D : Nat) : LevelData D :=
  { isDefined := true, disjointBoxLayout := [box D 8 11], nComp := 1,
    ghostVect := IntVect.Unit, data := fun _ _ _ => 1 }

/-- Field that has not been defined. -/
def undefinedField (D : Nat) : LevelData D :=
  { isDefined := false, disjointBoxLayout := [], nComp := 0, ghostVect := IntVect.Zero,
    data := fun _ _ _ => 0 }

/-- Problem domain `0..n-1` in every direction, not periodic. -/
def domain (D : Nat) (n : Int) : ProblemDomain D :=
  { domainBox := box D 0 (n - 1), isPeriodic := fun _ => false }

/-- Operator members with the given coefficients, unit spacing and nothing defined. -/
def members (D : Nat) (alpha beta : Real) : HelmholtzAMRLevelOp D :=
  { m_alpha := alpha, m_beta := beta, m_dx := 1, m_domain := domain D 8,
    m_use2ndOrderSmoother := false, m_diag := undefinedField D, m_bc := ⟨0⟩, m_cfregion := ⟨0⟩,
    m_exchangeCopier := ⟨0⟩, m_nonHomoInterp := none, m_homoInterp := none,
    m_levfluxreg := none, m_grids := grids D, m_coarsenedMGrids := [],
    m_refToCoarser := 2, m_refToFiner := 2 }

/-- A run that starts with an empty log. -/
def run (D : Nat) (alpha beta : Real) : Run D := { op := members D alpha beta, log := [] }

/-- An environment in which the operator keeps only its `alpha` term, the norm
looks at the valid cells `0` and `4` of component 0, and the ghost fills and
grid transfers leave the data alone. -/
def env (D : Nat) (order : Nat) (ndebug : Bool) : Env D :=
  { Order := order
    NDEBUG := ndebug
    uninitialised := fun _ _ _ => 0
    applyOpI := fun op lhs phi _ =>
      ({ lhs with data := fun i p c => op.m_alpha * phi.data i p c }, phi, op)
    residualI := fun op lhs phi rhs _ =>
      ({ lhs with data := fun i p c => rhs.data i p c - op.m_alpha * phi.data i p c }, phi, op)
    reflux := fun op _ _ res _ => (res, op)
    levelJacobi := fun op phi _ => (phi, op)
    levelGSRB := fun op phi _ => (phi, op)
    cacheOpDiag := fun op _ => op
    restrict := fun op phi _ _ => (phi, op)
    localMaxNorm := fun op x =>
      (|(x.valueAt (fun _ => 0) 0).getD 0| + |(x.valueAt (fun _ => 4) 0).getD 0|, op)
    fillCoarseFineGhostsNonHomo := fun _ phi _ => phi
    fillDomainBdryGhosts := fun op phi _ => (phi, op)
    bcFillGhostCells := fun _ phi _ _ => phi
    exchange := fun phi => phi
    exchangeNoOverlap := fun phi _ => phi }

/-- Two-dimensional problem domain of `nx` by `ny` cells, not periodic. -/
def slab (nx ny : Int) : ProblemDomain 2 :=
  { domainBox := { smallEnd := fun _ => 0, bigEnd := fun i => if i = 0 then nx - 1 else ny - 1 }
    isPeriodic := fun _ => false }

/-- Array of one component on the cells `lo..hi`, with the value 1. -/
def fab (D : Nat) (lo hi : Int) : FArrayBox D :=
  { box := box D lo hi, nComp := 1, data := fun _ _ => 1 }

/-- Flux kernels for cell-averaged data that return the flux array as it is. -/
def kernels (D : Nat) : HelmholtzAMRLevelOp.FluxKernels D :=
  { isCellAvgd := true
    REFLUXGETFLUX4 := fun flux _ _ _ _ => flux
    REFLUXGETFLUX2 := fun flux _ _ _ _ => flux }

/-- Field with one component and one ghost cell on the given layout. -/
def fieldOn (D : Nat) (dbl : DisjointBoxLayout D) : LevelData D :=
  { isDefined := true, disjointBoxLayout := dbl, nComp := 1, ghostVect := IntVect.Unit,
    data := fun _ _ _ => 0 }

end Example

/-! ## Lemmas on the index space and on the data operations -/

theorem DisjointBoxLayout.owner_spec {D : Nat} (dbl : DisjointBoxLayout D) (p : IntVect D)
    (i : Nat) (h : DisjointBoxLayout.owner dbl p = some i) :
    i < dbl.length ∧ (dbl.getD i Box.empty).contains p := by
  induction dbl generalizing i with
  | nil => simp [DisjointBoxLayout.owner] at h
  | cons b bs ih =>
    unfold DisjointBoxLayout.owner at h
    by_cases hb : b.contains p
    · simp only [hb, if_true, Option.some.injEq] at h
      subst h
      simpa using hb
    · simp only [hb, if_false, Option.map_eq_some'] at h
      obtain ⟨j, hj, rfl⟩ := h
      have := ih j hj
      simpa using this

theorem Box.intersect_contains {D : Nat} (a b : Box D) (p : IntVect D) :
    (a.intersect b).contains p ↔ a.contains p ∧ b.contains p := by
  simp only [Box.contains, Box.intersect, max_le_iff, le_min_iff]
  constructor
  · intro h
    exact ⟨fun i => ⟨(h i).1.1, (h i).2.1⟩, fun i => ⟨(h i).1.2, (h i).2.2⟩⟩
  · intro h i
    exact ⟨⟨(h.1 i).1, (h.2 i).1⟩, ⟨(h.1 i).2, (h.2 i).2⟩⟩

theorem Box.not_contains_of_isEmpty {D : Nat} (b : Box D) (p : IntVect D)
    (h : b.isEmpty = true) : ¬ b.contains p := by
  intro hp
  simp only [Box.isEmpty, Bool.not_eq_true', decide_eq_false_iff_not] at h
  exact h (fun i => le_trans (hp i).1 (hp i).2)

theorem Box.grow_contains {D : Nat} (b : Box D) (g : IntVect D) (p : IntVect D)
    (hg : ∀ d, 0 ≤ g d) (hp : b.contains p) : (b.grow g).contains p := by
  intro i
  have := hp i
  have := hg i
  simp only [Box.grow]
  constructor <;> omega

theorem DisjointBoxLayout.owner_isSome {D : Nat} (dbl : DisjointBoxLayout D) (p : IntVect D)
    (i : Nat) (hi : i < dbl.length) (hp : (dbl.getD i Box.empty).contains p) :
    ∃ j, DisjointBoxLayout.owner dbl p = some j := by
  induction dbl generalizing i with
  | nil => simp at hi
  | cons b bs ih =>
    unfold DisjointBoxLayout.owner
    by_cases hb : b.contains p
    · exact ⟨0, by simp [hb]⟩
    · cases i with
      | zero => exact absurd (by simpa using hp) hb
      | succ k =>
        have hk : k < bs.length := by simpa using hi
        obtain ⟨j, hj⟩ := ih k hk (by simpa using hp)
        exact ⟨j + 1, by simp [hb, hj]⟩

theorem LevelData.copyTo_valueAt {D : Nat} (src dest : LevelData D) (p : IntVect D) (c : Nat)
    (hn : dest.nComp = src.nComp)
    (hd : (dest.disjointBoxLayout.owner p).isSome)
    (hs : (src.disjointBoxLayout.owner p).isSome) :
    (src.copyTo dest).valueAt p c = src.valueAt p c := by
  obtain ⟨i, hi⟩ := Option.isSome_iff_exists.mp hd
  obtain ⟨j, hj⟩ := Option.isSome_iff_exists.mp hs
  have hspec := DisjointBoxLayout.owner_spec _ _ _ hi
  have hv : (dest.validBox i).contains p := hspec.2
  by_cases hc : c < src.nComp
  · simp [LevelData.valueAt, LevelData.copyTo, hi, hj, hspec.1, hv, hn, hc]
  · simp [LevelData.valueAt, LevelData.copyTo, hn, hc]

theorem LevelData.copyTo_valueAt_eq {D : Nat} (src dest : LevelData D)
    (hn : dest.nComp = src.nComp) (hl : dest.disjointBoxLayout = src.disjointBoxLayout) :
    (src.copyTo dest).valueAt = src.valueAt := by
  funext p c
  cases hs : src.disjointBoxLayout.owner p with
  | none =>
    have hd : (src.copyTo dest).disjointBoxLayout.owner p = none := by
      show dest.disjointBoxLayout.owner p = none
      rw [hl]; exact hs
    have hn2 : (src.copyTo dest).nComp = src.nComp := hn
    simp [LevelData.valueAt, hs, hd, hn2]
  | some j =>
    apply LevelData.copyTo_valueAt _ _ _ _ hn
    · rw [hl, hs]; rfl
    · rw [hs]; rfl

theorem LevelData.valueAt_congr {D : Nat} (x y : LevelData D) (h : x.sameOnValid y) :
    x.valueAt = y.valueAt := by
  obtain ⟨hl, hn, _, hd⟩ := h
  funext p c
  unfold LevelData.valueAt
  rw [← hl, ← hn]
  by_cases hc : c < x.nComp
  · rw [if_pos hc, if_pos hc]
    cases ho : x.disjointBoxLayout.owner p with
    | none => rfl
    | some i => simp [hd i p c ho hc]
  · rw [if_neg hc, if_neg hc]

theorem LevelData.ext_fields {D : Nat} (x y : LevelData D) (h1 : x.isDefined = y.isDefined)
    (h2 : x.disjointBoxLayout = y.disjointBoxLayout) (h3 : x.nComp = y.nComp)
    (h4 : x.ghostVect = y.ghostVect) (h5 : ∀ i p c, x.data i p c = y.data i p c) : x = y := by
  cases x
  cases y
  simp only [LevelData.mk.injEq]
  exact ⟨h1, h2, h3, h4, by funext i p c; exact h5 i p c⟩

theorem LevelDataOps.axby_residual {D : Nat} (L a_rhs : LevelData D) (i : Nat) (p : IntVect D)
    (c : Nat) (hi : i < L.disjointBoxLayout.length) (hp : (L.fab i).box.contains p)
    (hc : c < L.nComp) :
    (LevelDataOps.axby L L a_rhs (-1) 1).data i p c = a_rhs.data i p c - L.data i p c := by
  have hc2 : c < (L.fab i).nComp := hc
  simp only [LevelDataOps.axby, LevelData.forEachOn, FArrayBox.axby, hi, hp, hc2, if_true,
    and_self]
  show -1 * L.data i p c + 1 * a_rhs.data i p c = a_rhs.data i p c - L.data i p c
  ring

namespace HelmholtzAMRLevelOp

theorem AMRNorm.zeroUnder_box {D : Nat} (r : Int) (n : Nat) (f : FArrayBox D) (B : Box D) :
    (AMRNorm.zeroUnder r n f B).box = f.box := by
  unfold AMRNorm.zeroUnder
  split <;> rfl

theorem AMRNorm.zeroUnder_data {D : Nat} (r : Int) (n : Nat) (f : FArrayBox D) (B : Box D)
    (p : IntVect D) (c : Nat) :
    (AMRNorm.zeroUnder r n f B).data p c =
      if (f.box.contains p ∧ (B.coarsen r).contains p) ∧ c < n then 0 else f.data p c := by
  unfold AMRNorm.zeroUnder
  by_cases hE : (f.box.intersect (B.coarsen r)).isEmpty = true
  · have hno := Box.not_contains_of_isEmpty _ p hE
    rw [Box.intersect_contains] at hno
    simp [hE, hno]
  · have hE2 : (f.box.intersect (B.coarsen r)).isEmpty = false := by simpa using hE
    simp only [hE2, Bool.not_false, if_true, FArrayBox.setVal, Box.intersect_contains,
      Nat.zero_le, true_and, Nat.zero_add]

theorem AMRNorm.foldl_zeroUnder {D : Nat} (r : Int) (n : Nat) (Bs : List (Box D))
    (f : FArrayBox D) (p : IntVect D) (c : Nat) :
    ((f.box.contains p ∧ c < n ∧ ∃ B ∈ Bs, (B.coarsen r).contains p) →
      (Bs.foldl (AMRNorm.zeroUnder r n) f).data p c = 0) ∧
    (¬ (f.box.contains p ∧ c < n ∧ ∃ B ∈ Bs, (B.coarsen r).contains p) →
      (Bs.foldl (AMRNorm.zeroUnder r n) f).data p c = f.data p c) := by
  induction Bs generalizing f with
  | nil => simp
  | cons B Bs ih =>
    simp only [List.foldl_cons]
    have ih1 := ih (AMRNorm.zeroUnder r n f B)
    rw [AMRNorm.zeroUnder_box, AMRNorm.zeroUnder_data] at ih1
    by_cases hB : (f.box.contains p ∧ (B.coarsen r).contains p) ∧ c < n
    · rw [if_pos hB] at ih1
      constructor
      · intro _
        by_cases hrest : f.box.contains p ∧ c < n ∧ ∃ B ∈ Bs, (B.coarsen r).contains p
        · exact ih1.1 hrest
        · exact ih1.2 hrest
      · intro hneg
        exact absurd ⟨hB.1.1, hB.2, B, List.mem_cons_self _ _, hB.1.2⟩ hneg
    · rw [if_neg hB] at ih1
      constructor
      · rintro ⟨hp, hc, B', hB', hcov⟩
        rcases List.mem_cons.mp hB' with rfl | hmem
        · exact absurd ⟨⟨hp, hcov⟩, hc⟩ hB
        · exact ih1.1 ⟨hp, hc, B', hmem, hcov⟩
      · intro hneg
        apply ih1.2
        rintro ⟨hp, hc, B', hB', hcov⟩
        exact hneg ⟨hp, hc, B', List.mem_cons_of_mem _ hB', hcov⟩
theorem AMRNorm.coarTemp_data {D : Nat} (env : Env D) (a_coarResid a_fineResid : LevelData D)
    ( a_refRat : Int) (i : Nat) (p : IntVect D) (c : Nat) :
    ((i < a_coarResid.disjointBoxLayout.length ∧ (a_coarResid.fab i).box.contains p ∧
        c < a_coarResid.nComp ∧ AMRNorm.covered a_fineResid a_refRat p) →
      (AMRNorm.coarTemp env a_coarResid a_fineResid a_refRat).data i p c = 0) ∧
    (¬ (i < a_coarResid.disjointBoxLayout.length ∧ (a_coarResid.fab i).box.contains p ∧
        c < a_coarResid.nComp ∧ AMRNorm.covered a_fineResid a_refRat p) →
      (AMRNorm.coarTemp env a_coarResid a_fineResid a_refRat).data i p c =
        (LevelDataOps.assign (LevelDataOps.create env.uninitialised a_coarResid)
          a_coarResid).data i p c) := by
  unfold AMRNorm.coarTemp
  by_cases hf : a_fineResid.isDefined = true
  · rw [if_pos hf]
    by_cases hi : i < a_coarResid.disjointBoxLayout.length
    · have hfold := AMRNorm.foldl_zeroUnder a_refRat a_coarResid.nComp
        a_fineResid.disjointBoxLayout
        ((LevelDataOps.assign (LevelDataOps.create env.uninitialised a_coarResid)
          a_coarResid).fab i) p c
      have hdata : ∀ g : Nat → FArrayBox D → FArrayBox D,
          ((LevelDataOps.assign (LevelDataOps.create env.uninitialised a_coarResid)
            a_coarResid).forEachOn a_coarResid.disjointBoxLayout g).data i p c =
          (g i ((LevelDataOps.assign (LevelDataOps.create env.uninitialised a_coarResid)
            a_coarResid).fab i)).data p c := by
        intro g
        simp only [LevelData.forEachOn, hi, if_true]
      rw [hdata]
      constructor
      · rintro ⟨_, hp, hc, _, hB⟩
        exact hfold.1 ⟨hp, hc, hB⟩
      · intro hneg
        have := hfold.2 (fun h => hneg ⟨hi, h.1, h.2.1, hf, h.2.2⟩)
        exact this
    · constructor
      · intro h; exact absurd h.1 hi
      · intro _
        simp only [LevelData.forEachOn, hi, if_false]
  · rw [if_neg hf]
    constructor
    · intro h; exact absurd h.2.2.2.1 hf
    · intro _; rfl

theorem assignLocal_copies {D : Nat} (a_lhs a_rhs : LevelData D) (i : Nat) (p : IntVect D)
    (c : Nat) (hi : i < a_lhs.disjointBoxLayout.length) (hl : (a_lhs.fab i).box.contains p)
    (hr : (a_rhs.fab i).box.contains p) (hc : c < a_lhs.nComp) :
    (assignLocal a_lhs a_rhs).data i p c = a_rhs.data i p c := by
  have hc2 : c < (a_lhs.fab i).nComp := hc
  simp only [assignLocal, LevelData.forEachOn, FArrayBox.copy, hi, hl, hr, hc2, if_true,
    and_self]
  rfl

theorem relaxLoop_jacobi {D : Nat} (env : Env D) (a_residual : LevelData D) (n : Nat)
    (a_e : LevelData D) (r : Run D) :
    ∃ e1 r1, relaxLoop env a_residual n a_e r = Except.ok (e1, r1) ∧
      r1.log = r.log ++ jacobiEvents n := by
  induction n generalizing a_e r with
  | zero => exact ⟨a_e, r, rfl, by simp [jacobiEvents]⟩
  | succ k ih =>
    obtain ⟨e1, r1, h1, h2⟩ := ih (levelJacobi env (cacheOpDiag env r a_e) a_e a_residual).1
      (levelJacobi env (cacheOpDiag env r a_e) a_e a_residual).2
    refine ⟨e1, r1, ?_, ?_⟩
    · simp only [relaxLoop, s_relaxMode, if_true]
      exact h1
    · rw [h2]
      simp [levelJacobi, cacheOpDiag, jacobiEvents]

theorem not_mem_jacobiEvents (n : Nat) : Event.levelGSRB ∉ jacobiEvents n := by
  induction n with
  | zero => simp [jacobiEvents]
  | succ k ih => simp [jacobiEvents, ih]

theorem preCondInit_data {D : Nat} (a_phi a_rhs : LevelData D) (mult : Real) (i : Nat)
    (p : IntVect D) (c : Nat) (hi : i < a_phi.disjointBoxLayout.length)
    (hl : (a_phi.fab i).box.contains p) (hr : (a_rhs.fab i).box.contains p)
    (hc : c < a_phi.nComp) :
    (preCondInit a_phi a_rhs mult).data i p c = a_rhs.data i p c * mult := by
  have hc2 : c < (a_phi.fab i).nComp := hc
  simp only [preCondInit, LevelData.forEachOn, FArrayBox.copy, FArrayBox.mult, hi, hl, hr, hc2,
    if_true, and_self]
  rfl

theorem preCondMult_eq {D : Nat} (env : Env D) (op : HelmholtzAMRLevelOp D)
    (horder : env.Order = 2 ∨ env.Order = 4) :
    preCondMult env op = 1 / diagonalCoefficient env.Order D op.m_alpha op.m_beta op.m_dx := by
  rcases horder with h | h
  · simp only [preCondMult, diagonalCoefficient, h, if_true, pow_two]
  · simp only [preCondMult, diagonalCoefficient, h, if_true, pow_two, div_div]
    simp

theorem getFlux.edgebox_isEmpty_iff {D : Nat} (Order : Nat) (a_data : FArrayBox D) (a_dir : Fin D)
    (hdata : a_data.box.isEmpty = false) :
    (getFlux.edgebox Order a_data a_dir).isEmpty = false ↔
      2 * s_nGhosts Order ≤ a_data.box.size a_dir := by
  have hbox : ∀ i, a_data.box.smallEnd i ≤ a_data.box.bigEnd i := by
    simpa [Box.isEmpty] using hdata
  simp only [getFlux.edgebox, Box.isEmpty, Box.growDir, Box.surroundingNodes, Box.size,
    Bool.not_eq_false', decide_eq_true_eq]
  constructor
  · intro h
    have := h a_dir
    simp only [if_true] at this
    omega
  · intro h i
    by_cases hi : i = a_dir
    · subst hi
      simp only [if_true]
      omega
    · simp only [hi, if_false]
      exact hbox i

theorem wrapInt_of_inIntRange (x : Int) (h : inIntRange x) : wrapInt x = x := by
  unfold inIntRange at h
  unfold wrapInt
  omega

theorem define.exceedsThreshold_iff {D : Nat} ( a_refRatio : Int) (a_domain : ProblemDomain D)
    (hthr : inIntRange (a_refRatio * s_minCoarsestDomainSize))
    (hsize : ∀ d, inIntRange (a_domain.domainBox.size d)) :
    define.exceedsThreshold a_refRatio a_domain ↔
      ∃ d, a_refRatio * s_minCoarsestDomainSize < a_domain.domainBox.size d := by
  unfold define.exceedsThreshold
  rw [wrapInt_of_inIntRange _ hthr]
  constructor
  · rintro ⟨d, hd⟩
    rw [wrapInt_of_inIntRange _ (hsize d)] at hd
    exact ⟨d, hd⟩
  · rintro ⟨d, hd⟩
    exact ⟨d, by rw [wrapInt_of_inIntRange _ (hsize d)]; exact hd⟩

theorem define.smallDomain_eq {D : Nat} ( a_refRatio : Int) (a_domain : ProblemDomain D) :
    IntVect.le (fun d => wrapInt (a_domain.domainBox.size d))
        (IntVect.scale (wrapInt (a_refRatio * s_minCoarsestDomainSize)) IntVect.Unit) = true ↔
      ¬ define.exceedsThreshold a_refRatio a_domain := by
  simp only [IntVect.le, IntVect.scale, IntVect.Unit, mul_one, decide_eq_true_eq,
    define.exceedsThreshold, not_exists, not_lt]

theorem define_returns_early {D : Nat} (env : Env D) (r : Run D)
    (a_grids : DisjointBoxLayout D) (a_gridsFiner a_gridsCoarser : Option (DisjointBoxLayout D))
    (a_dxLevel : Real) ( a_refRatio : Int) (a_refRatioFiner : Int) (a_domain : ProblemDomain D)
    (a_bc : BoundaryCondition) (a_exchange : Copier) (a_cfregion : CFRegion) (a_nComps : Int)
    (hskip : ¬ ((a_gridsFiner.isSome = true ∨ a_gridsCoarser.isSome = true) ∧
      define.exceedsThreshold a_refRatio a_domain)) :
    ∃ r1, define env r a_grids a_gridsFiner a_gridsCoarser a_dxLevel a_refRatio
        a_refRatioFiner a_domain a_bc a_exchange a_cfregion a_nComps = Except.ok r1 ∧
      r1.op.m_homoInterp = r.op.m_homoInterp ∧
      r1.op.m_nonHomoInterp = r.op.m_nonHomoInterp ∧
      r1.log = r.log ++ (if a_gridsFiner.isSome then [Event.fluxRegisterDefine] else []) ∧
      r1.op.m_dx = a_dxLevel ∧ r1.op.m_refToCoarser = a_refRatio ∧
      r1.op.m_refToFiner = a_refRatioFiner ∧ r1.op.m_domain = a_domain ∧
      r1.op.m_bc = a_bc ∧ r1.op.m_exchangeCopier = a_exchange ∧
      r1.op.m_cfregion = a_cfregion ∧ r1.op.m_grids = a_grids := by
  have hcond : (a_gridsFiner.isNone && a_gridsCoarser.isNone ||
      IntVect.le (fun d => wrapInt (a_domain.domainBox.size d))
        (IntVect.scale (wrapInt (a_refRatio * s_minCoarsestDomainSize)) IntVect.Unit))
      = true := by
    by_cases hany : a_gridsFiner.isSome = true ∨ a_gridsCoarser.isSome = true
    · have hle := (define.smallDomain_eq a_refRatio a_domain).mpr (fun h => hskip ⟨hany, h⟩)
      simp [hle]
    · have h1 : a_gridsFiner = none := by
        cases a_gridsFiner with
        | none => rfl
        | some g => exact absurd (Or.inl rfl) hany
      have h2 : a_gridsCoarser = none := by
        cases a_gridsCoarser with
        | none => rfl
        | some g => exact absurd (Or.inr rfl) hany
      simp [h1, h2]
  cases a_gridsFiner with
  | none =>
    unfold define
    simp only []
    rw [if_pos hcond]
    exact ⟨_, rfl, by simp⟩
  | some gf =>
    unfold define
    simp only []
    rw [if_pos hcond]
    exact ⟨_, rfl, by simp⟩

theorem define_condition_false {D : Nat} (a_gridsFiner a_gridsCoarser : Option (DisjointBoxLayout D))
    ( a_refRatio : Int) (a_domain : ProblemDomain D)
    (hany : a_gridsFiner.isSome = true ∨ a_gridsCoarser.isSome = true)
    (hbig : define.exceedsThreshold a_refRatio a_domain) :
    ¬ ((a_gridsFiner.isNone && a_gridsCoarser.isNone ||
      IntVect.le (fun d => wrapInt (a_domain.domainBox.size d))
        (IntVect.scale (wrapInt (a_refRatio * s_minCoarsestDomainSize)) IntVect.Unit))
      = true) := by
  have hle : IntVect.le (fun d => wrapInt (a_domain.domainBox.size d))
      (IntVect.scale (wrapInt (a_refRatio * s_minCoarsestDomainSize)) IntVect.Unit)
      = false := by
    cases hv : IntVect.le (fun d => wrapInt (a_domain.domainBox.size d))
      (IntVect.scale (wrapInt (a_refRatio * s_minCoarsestDomainSize)) IntVect.Unit) with
    | false => rfl
    | true => exact absurd hbig ((define.smallDomain_eq a_refRatio a_domain).mp hv)
  have hnone : (a_gridsFiner.isNone && a_gridsCoarser.isNone) = false := by
    rcases hany with h | h
    · cases a_gridsFiner with
      | none => simp at h
      | some g => simp
    · cases a_gridsCoarser with
      | none => simp at h
      | some g => simp
  simp [hle, hnone]

theorem define_builds {D : Nat} (env : Env D) (r : Run D)
    (a_grids : DisjointBoxLayout D) (a_gridsFiner a_gridsCoarser : Option (DisjointBoxLayout D))
    (a_dxLevel : Real) ( a_refRatio : Int) (a_refRatioFiner : Int) (a_domain : ProblemDomain D)
    (a_bc : BoundaryCondition) (a_exchange : Copier) (a_cfregion : CFRegion) (a_nComps : Int)
    (cg : DisjointBoxLayout D)
    (hany : a_gridsFiner.isSome = true ∨ a_gridsCoarser.isSome = true)
    (hbig : define.exceedsThreshold a_refRatio a_domain)
    (hcg : (if a_refRatio = 1 then some (DisjointBoxLayout.coarsen a_grids a_refRatioFiner)
      else a_gridsCoarser) = some cg) :
    ∃ r1, define env r a_grids a_gridsFiner a_gridsCoarser a_dxLevel a_refRatio
        a_refRatioFiner a_domain a_bc a_exchange a_cfregion a_nComps = Except.ok r1 ∧
      r1.op.m_homoInterp = some
        { fineGrids := a_grids, coarseGrids := cg, domain := a_domain, homogeneous := true,
          polyDegree := env.Order,
          refRatio := if a_refRatioFiner = 1 then a_refRatio else a_refRatioFiner,
          nGhosts := s_nGhosts env.Order, nesting := s_nGhosts env.Order,
          flags := [false, true, false, true] } ∧
      r1.op.m_nonHomoInterp = some
        { fineGrids := a_grids, coarseGrids := cg, domain := a_domain, homogeneous := false,
          polyDegree := env.Order,
          refRatio := if a_refRatioFiner = 1 then a_refRatio else a_refRatioFiner,
          nGhosts := s_nGhosts env.Order, nesting := s_nGhosts env.Order,
          flags := [true] } ∧
      r1.log = r.log ++ (if a_gridsFiner.isSome then [Event.fluxRegisterDefine] else [])
        ++ [Event.interpDefine true, Event.interpDefine false] ∧
      r1.op.m_refToCoarser = a_refRatio ∧ r1.op.m_refToFiner = a_refRatioFiner := by
  have hcond := define_condition_false a_gridsFiner a_gridsCoarser a_refRatio a_domain hany hbig
  cases a_gridsFiner with
  | none =>
    unfold define
    simp only []
    rw [if_neg hcond, hcg]
    exact ⟨_, rfl, by simp⟩
  | some gf =>
    unfold define
    simp only []
    rw [if_neg hcond, hcg]
    exact ⟨_, rfl, by simp⟩

theorem define_null_coarser {D : Nat} (env : Env D) (r : Run D)
    (a_grids : DisjointBoxLayout D) (gridsFiner : DisjointBoxLayout D)
    (a_dxLevel : Real) ( a_refRatio : Int) (a_refRatioFiner : Int) (a_domain : ProblemDomain D)
    (a_bc : BoundaryCondition) (a_exchange : Copier) (a_cfregion : CFRegion) (a_nComps : Int)
    (hone : a_refRatio ≠ 1) (hbig : define.exceedsThreshold a_refRatio a_domain) :
    define env r a_grids (some gridsFiner) none a_dxLevel a_refRatio
        a_refRatioFiner a_domain a_bc a_exchange a_cfregion a_nComps
      = Except.error "null a_gridsCoarser dereferenced" := by
  have hcond := define_condition_false (some gridsFiner) none a_refRatio a_domain
    (Or.inl rfl) hbig
  unfold define
  simp only []
  rw [if_neg hcond, if_neg hone]

/-! ## Theorems -/

/-- C1. With `alpha == 1` and `beta == 0`, `relax(a_e, a_residual, a_iterations)`
returns, for every iteration count, with `a_e` the copy `a_residual.copyTo(a_e)`
and with the run exactly as it was: neither the members nor the log change, so
no `cacheOpDiag`, `levelJacobi` or `levelGSRB` call is made.  For two fields
with the same component count, the copy has the value of `a_residual` at every
cell that is valid in both, and it is equal to `a_residual` as a field on the
valid cells when the two share their layout. -/
theorem relax_identity_copies_residual {D : Nat} (env : Env D) (r : Run D)
    (a_e a_residual : LevelData D) (a_iterations : Int)
    (halpha : r.op.m_alpha = 1) (hbeta : r.op.m_beta = 0) :
    relax env r a_e a_residual a_iterations = Except.ok (a_residual.copyTo a_e, r) ∧
    (a_e.nComp = a_residual.nComp →
      ∀ p c, (a_e.disjointBoxLayout.owner p).isSome →
        (a_residual.disjointBoxLayout.owner p).isSome →
        (a_residual.copyTo a_e).valueAt p c = a_residual.valueAt p c) ∧
    (a_e.nComp = a_residual.nComp → a_e.disjointBoxLayout = a_residual.disjointBoxLayout →
      (a_residual.copyTo a_e).valueAt = a_residual.valueAt) := by
  refine ⟨?_, ?_, ?_⟩
  · simp [relax, halpha, hbeta]
  · intro hn p c hd hs
    exact LevelData.copyTo_valueAt _ _ p c hn hd hs
  · intro hn hl
    funext p c
    cases hs : a_residual.disjointBoxLayout.owner p with
    | none =>
      have hd : (a_residual.copyTo a_e).disjointBoxLayout.owner p = none := by
        show a_e.disjointBoxLayout.owner p = none
        rw [hl]; exact hs
      have hn2 : (a_residual.copyTo a_e).nComp = a_residual.nComp := hn
      simp [LevelData.valueAt, hs, hd, hn2]
    | some j =>
      apply LevelData.copyTo_valueAt _ _ _ _ hn
      · rw [hl, hs]; rfl
      · rw [hs]; rfl

/-- Instance of C1: identity coefficients, three iterations requested, two
fields on the same layout. -/
theorem relax_identity_copies_residual_witness :
    relax (Example.env 1 4 false) (Example.run 1 1 0) (Example.field 1 5) (Example.field 1 7) 3
      = Except.ok ((Example.field 1 7).copyTo (Example.field 1 5), Example.run 1 1 0) ∧
    ((Example.field 1 7).copyTo (Example.field 1 5)).valueAt = (Example.field 1 7).valueAt :=
  have h := relax_identity_copies_residual (Example.env 1 4 false) (Example.run 1 1 0)
    (Example.field 1 5) (Example.field 1 7) 3 rfl rfl
  ⟨h.1, h.2.2 rfl rfl⟩

/-- C2. Whenever the assertion `a_finerOp != NULL` of `AMROperator` lets the call
through (release build, or a non-null `a_finerOp`), `AMROperator` returns a field
`L` and `AMRResidual`, called with the same arguments, returns with the same
`a_phi`, members and log and with `a_residual = -1*L + 1*a_rhs`: on every patch,
at every cell of the patch's array and every component, `a_residual` is `a_rhs`
minus `L`.  The same holds for `AMRResidualNC` and `AMROperatorNC`. -/
theorem AMRResidual_eq_rhs_minus_AMROperator {D : Nat} (env : Env D) (r : Run D)
    (a_residual a_phiFine a_phi a_phiCoarse a_rhs : LevelData D) (a_homogeneousPhysBC : Bool)
    (a_finerOp : Option AMRLevelOpRef)
    (hassert : env.NDEBUG = true ∨ a_finerOp.isSome = true) :
    (∃ L R, AMROperator env r a_residual a_phiFine a_phi a_phiCoarse a_homogeneousPhysBC
          a_finerOp = Except.ok L ∧
        AMRResidual env r a_residual a_phiFine a_phi a_phiCoarse a_rhs a_homogeneousPhysBC
          a_finerOp = Except.ok R ∧
        R.phi = L.phi ∧ R.run = L.run ∧
        R.lhs = LevelDataOps.axby L.lhs L.lhs a_rhs (-1) 1 ∧
        R.lhs.disjointBoxLayout = L.lhs.disjointBoxLayout ∧
        ∀ i p c, i < L.lhs.disjointBoxLayout.length → (L.lhs.fab i).box.contains p →
          c < L.lhs.nComp → R.lhs.data i p c = a_rhs.data i p c - L.lhs.data i p c) ∧
    (∃ L R, AMROperatorNC env r a_residual a_phiFine a_phi a_homogeneousPhysBC
          a_finerOp = Except.ok L ∧
        AMRResidualNC env r a_residual a_phiFine a_phi a_rhs a_homogeneousPhysBC
          a_finerOp = Except.ok R ∧
        R.phi = L.phi ∧ R.run = L.run ∧
        R.lhs = LevelDataOps.axby L.lhs L.lhs a_rhs (-1) 1 ∧
        R.lhs.disjointBoxLayout = L.lhs.disjointBoxLayout ∧
        ∀ i p c, i < L.lhs.disjointBoxLayout.length → (L.lhs.fab i).box.contains p →
          c < L.lhs.nComp → R.lhs.data i p c = a_rhs.data i p c - L.lhs.data i p c) := by
  have hok : CH_assert env a_finerOp.isSome = true := by
    rcases hassert with h | h <;> simp [CH_assert, h]
  constructor
  · obtain ⟨L, hL⟩ : ∃ L, AMROperator env r a_residual a_phiFine a_phi a_phiCoarse
        a_homogeneousPhysBC a_finerOp = Except.ok L := by
      unfold AMROperator
      rw [if_pos hok]
      by_cases hf : a_phiFine.isDefined = true
      · simp only [hf, if_true]; exact ⟨_, rfl⟩
      · simp only [hf]; exact ⟨_, rfl⟩
    refine ⟨L, { L with lhs := axby L.lhs L.lhs a_rhs (-1) 1 }, hL, ?_, rfl, rfl, rfl, rfl, ?_⟩
    · simp only [AMRResidual, hL]
    · intro i p c hi hp hc
      exact LevelDataOps.axby_residual L.lhs a_rhs i p c hi hp hc
  · obtain ⟨L, hL⟩ : ∃ L, AMROperatorNC env r a_residual a_phiFine a_phi
        a_homogeneousPhysBC a_finerOp = Except.ok L := by
      unfold AMROperatorNC
      rw [if_pos hok]
      by_cases hf : a_phiFine.isDefined = true
      · simp only [hf, if_true]; exact ⟨_, rfl⟩
      · simp only [hf]; exact ⟨_, rfl⟩
    refine ⟨L, { L with lhs := axby L.lhs L.lhs a_rhs (-1) 1 }, hL, ?_, rfl, rfl, rfl, rfl, ?_⟩
    · simp only [AMRResidualNC, hL]
    · intro i p c hi hp hc
      exact LevelDataOps.axby_residual L.lhs a_rhs i p c hi hp hc

/-- Instance of C2: debug build, a finer operator and a finer field are present. -/
theorem AMRResidual_eq_rhs_minus_AMROperator_witness :
    (∃ L R, AMROperator (Example.env 1 4 false) (Example.run 1 2 1) (Example.field 1 0)
          (Example.field 1 1) (Example.field 1 3) (Example.field 1 4) true (some ⟨1⟩) = Except.ok L ∧
        AMRResidual (Example.env 1 4 false) (Example.run 1 2 1) (Example.field 1 0)
          (Example.field 1 1) (Example.field 1 3) (Example.field 1 4) (Example.field 1 10) true
          (some ⟨1⟩) = Except.ok R ∧
        R.phi = L.phi ∧ R.run = L.run ∧
        R.lhs = LevelDataOps.axby L.lhs L.lhs (Example.field 1 10) (-1) 1 ∧
        R.lhs.disjointBoxLayout = L.lhs.disjointBoxLayout ∧
        ∀ i p c, i < L.lhs.disjointBoxLayout.length → (L.lhs.fab i).box.contains p →
          c < L.lhs.nComp →
          R.lhs.data i p c = (Example.field 1 10).data i p c - L.lhs.data i p c) ∧
    (∃ L R, AMROperatorNC (Example.env 1 4 false) (Example.run 1 2 1) (Example.field 1 0)
          (Example.field 1 1) (Example.field 1 3) true (some ⟨1⟩) = Except.ok L ∧
        AMRResidualNC (Example.env 1 4 false) (Example.run 1 2 1) (Example.field 1 0)
          (Example.field 1 1) (Example.field 1 3) (Example.field 1 10) true
          (some ⟨1⟩) = Except.ok R ∧
        R.phi = L.phi ∧ R.run = L.run ∧
        R.lhs = LevelDataOps.axby L.lhs L.lhs (Example.field 1 10) (-1) 1 ∧
        R.lhs.disjointBoxLayout = L.lhs.disjointBoxLayout ∧
        ∀ i p c, i < L.lhs.disjointBoxLayout.length → (L.lhs.fab i).box.contains p →
          c < L.lhs.nComp →
          R.lhs.data i p c = (Example.field 1 10).data i p c - L.lhs.data i p c) :=
  AMRResidual_eq_rhs_minus_AMROperator (Example.env 1 4 false) (Example.run 1 2 1)
    (Example.field 1 0) (Example.field 1 1) (Example.field 1 3) (Example.field 1 4) (Example.field 1 10)
    true (some ⟨1⟩) (Or.inr rfl)

/-- C3. Whenever the assertion `a_finerOp != NULL` lets the call through,
`AMROperator` returns; the calls it makes are, in this order,
`fillCoarseFineGhostsNonHomo(a_phi, a_phiCoarse)`, `applyOpI` on the filled
`a_phi` and, only if `a_phiFine` is defined, one `reflux` on the result of
`applyOpI`.  If `a_phiFine` is not defined there is no `reflux` call and
`a_LofPhi` and the members are exactly those `applyOpI` returned. -/
theorem AMROperator_fill_apply_reflux {D : Nat} (env : Env D) (r : Run D)
    (a_LofPhi a_phiFine a_phi a_phiCoarse : LevelData D) (a_homoPhysBC : Bool)
    (a_finerOp : Option AMRLevelOpRef)
    (hassert : env.NDEBUG = true ∨ a_finerOp.isSome = true) :
    ∃ res, AMROperator env r a_LofPhi a_phiFine a_phi a_phiCoarse a_homoPhysBC a_finerOp
        = Except.ok res ∧
      res.phi = (env.applyOpI r.op a_LofPhi
          (env.fillCoarseFineGhostsNonHomo r.op a_phi a_phiCoarse) a_homoPhysBC).2.1 ∧
      (a_phiFine.isDefined = true →
        res.run.log = r.log ++ [Event.fillCoarseFineGhostsNonHomo,
          Event.applyOpI a_homoPhysBC, Event.reflux] ∧
        (res.run.log.drop r.log.length).count Event.reflux = 1 ∧
        (res.lhs, res.run.op) = env.reflux
          (env.applyOpI r.op a_LofPhi
            (env.fillCoarseFineGhostsNonHomo r.op a_phi a_phiCoarse) a_homoPhysBC).2.2
          a_phiFine
          (env.applyOpI r.op a_LofPhi
            (env.fillCoarseFineGhostsNonHomo r.op a_phi a_phiCoarse) a_homoPhysBC).2.1
          (env.applyOpI r.op a_LofPhi
            (env.fillCoarseFineGhostsNonHomo r.op a_phi a_phiCoarse) a_homoPhysBC).1
          a_finerOp) ∧
      (a_phiFine.isDefined = false →
        res.run.log = r.log ++ [Event.fillCoarseFineGhostsNonHomo,
          Event.applyOpI a_homoPhysBC] ∧
        (res.run.log.drop r.log.length).count Event.reflux = 0 ∧
        res.lhs = (env.applyOpI r.op a_LofPhi
          (env.fillCoarseFineGhostsNonHomo r.op a_phi a_phiCoarse) a_homoPhysBC).1 ∧
        res.run.op = (env.applyOpI r.op a_LofPhi
          (env.fillCoarseFineGhostsNonHomo r.op a_phi a_phiCoarse) a_homoPhysBC).2.2) := by
  have hok : CH_assert env a_finerOp.isSome = true := by
    rcases hassert with h | h <;> simp [CH_assert, h]
  unfold AMROperator
  rw [if_pos hok]
  by_cases hf : a_phiFine.isDefined = true
  · simp only [hf, if_true]
    refine ⟨_, rfl, rfl, ?_, ?_⟩
    · intro _
      refine ⟨?_, ?_, rfl⟩
      · simp [reflux, applyOpI, fillCoarseFineGhostsNonHomo]
      · simp [reflux, applyOpI, fillCoarseFineGhostsNonHomo]
    · intro h; cases h
  · have hf2 : a_phiFine.isDefined = false := by simpa using hf
    simp only [hf2]
    refine ⟨_, rfl, rfl, ?_, ?_⟩
    · intro h; cases h
    · intro _
      refine ⟨?_, ?_, rfl, rfl⟩
      · simp [applyOpI, fillCoarseFineGhostsNonHomo]
      · simp [applyOpI, fillCoarseFineGhostsNonHomo]

/-- Instance of C3: debug build, a finer operator and a finer field are present. -/
theorem AMROperator_fill_apply_reflux_witness :
    ∃ res, AMROperator (Example.env 1 4 false) (Example.run 1 2 1) (Example.field 1 0)
          (Example.field 1 1) (Example.field 1 3) (Example.field 1 4) true (some ⟨1⟩)
        = Except.ok res ∧
      res.run.log = [Event.fillCoarseFineGhostsNonHomo, Event.applyOpI true, Event.reflux] :=
  (AMROperator_fill_apply_reflux (Example.env 1 4 false) (Example.run 1 2 1) (Example.field 1 0)
    (Example.field 1 1) (Example.field 1 3) (Example.field 1 4) true (some ⟨1⟩) (Or.inr rfl)).elim
    (fun res h => ⟨res, h.1, by simpa [Example.run] using (h.2.2.1 rfl).1⟩)

/-- C4. `AMRNorm` returns the norm of the field `coarTemp`, which has the layout,
component count and ghost vector of `a_coarResid`, is zero on every cell of a
coarse patch's array box that lies in `coarsen(B, a_refRat)` for a box `B` of a
defined `a_fineResid`, and has the value of `a_coarResid` on every valid cell
that is not covered.  When `a_fineResid` is not defined, `coarTemp` is the plain
copy of `a_coarResid` and equals it as a field on the valid cells.  The values
of `a_coarResid` at covered cells never affect the result: two coarse fields of
the same shape (ghost width non-negative) that agree on the valid cells that are
not covered have the same `AMRNorm`.  If `localMaxNorm` depends only on the
values at the valid cells, `AMRNorm` is the norm of `zeroCovered` (the field
equal to `a_coarResid` except zero at the covered cells of each patch's box),
and the norm of `a_coarResid` itself when `a_fineResid` is not defined. -/
theorem AMRNorm_ignores_covered_cells {D : Nat} (env : Env D) (r : Run D)
    (a_coarResid a_fineResid : LevelData D) ( a_refRat : Int) (a_ord : Int) :
    AMRNorm env r a_coarResid a_fineResid a_refRat a_ord =
      localMaxNorm env r (AMRNorm.coarTemp env a_coarResid a_fineResid a_refRat) ∧
    ((AMRNorm.coarTemp env a_coarResid a_fineResid a_refRat).disjointBoxLayout
        = a_coarResid.disjointBoxLayout ∧
      (AMRNorm.coarTemp env a_coarResid a_fineResid a_refRat).nComp = a_coarResid.nComp ∧
      (AMRNorm.coarTemp env a_coarResid a_fineResid a_refRat).ghostVect
        = a_coarResid.ghostVect) ∧
    (∀ i p c, i < a_coarResid.disjointBoxLayout.length → (a_coarResid.fab i).box.contains p →
      c < a_coarResid.nComp → AMRNorm.covered a_fineResid a_refRat p →
      (AMRNorm.coarTemp env a_coarResid a_fineResid a_refRat).data i p c = 0) ∧
    (∀ i p c, a_coarResid.disjointBoxLayout.owner p = some i → c < a_coarResid.nComp →
      ¬ AMRNorm.covered a_fineResid a_refRat p →
      (AMRNorm.coarTemp env a_coarResid a_fineResid a_refRat).data i p c
        = a_coarResid.data i p c) ∧
    (a_fineResid.isDefined = false →
      AMRNorm.coarTemp env a_coarResid a_fineResid a_refRat
        = LevelDataOps.assign (LevelDataOps.create env.uninitialised a_coarResid)
            a_coarResid ∧
      (AMRNorm.coarTemp env a_coarResid a_fineResid a_refRat).valueAt
        = a_coarResid.valueAt) ∧
    (∀ other : LevelData D, (∀ d, 0 ≤ a_coarResid.ghostVect d) →
      other.disjointBoxLayout = a_coarResid.disjointBoxLayout →
      other.nComp = a_coarResid.nComp → other.ghostVect = a_coarResid.ghostVect →
      (∀ i p c, a_coarResid.disjointBoxLayout.owner p = some i → c < a_coarResid.nComp →
        ¬ AMRNorm.covered a_fineResid a_refRat p →
        other.data i p c = a_coarResid.data i p c) →
      AMRNorm env r other a_fineResid a_refRat a_ord
        = AMRNorm env r a_coarResid a_fineResid a_refRat a_ord) ∧
    ((∀ x y : LevelData D, x.sameOnValid y →
        env.localMaxNorm r.op x = env.localMaxNorm r.op y) →
      AMRNorm env r a_coarResid a_fineResid a_refRat a_ord
        = localMaxNorm env r (AMRNorm.zeroCovered a_coarResid a_fineResid a_refRat) ∧
      (a_fineResid.isDefined = false →
        AMRNorm env r a_coarResid a_fineResid a_refRat a_ord
          = localMaxNorm env r a_coarResid)) := by
  have hbase : ∀ (x : LevelData D) i p c,
      (LevelDataOps.assign (LevelDataOps.create env.uninitialised x) x).data i p c =
        if i < x.disjointBoxLayout.length ∧ (x.validBox i).contains p ∧ c < x.nComp then
          match x.disjointBoxLayout.owner p with
          | some j => x.data j p c
          | none => env.uninitialised i p c
        else env.uninitialised i p c := fun _ _ _ _ => rfl
  have hshape : ∀ x : LevelData D,
      (AMRNorm.coarTemp env x a_fineResid a_refRat).isDefined = true ∧
      (AMRNorm.coarTemp env x a_fineResid a_refRat).disjointBoxLayout = x.disjointBoxLayout ∧
      (AMRNorm.coarTemp env x a_fineResid a_refRat).nComp = x.nComp ∧
      (AMRNorm.coarTemp env x a_fineResid a_refRat).ghostVect = x.ghostVect := by
    intro x
    unfold AMRNorm.coarTemp
    split <;> exact ⟨rfl, rfl, rfl, rfl⟩
  have hown : ∀ i p c, a_coarResid.disjointBoxLayout.owner p = some i →
      c < a_coarResid.nComp →
      (LevelDataOps.assign (LevelDataOps.create env.uninitialised a_coarResid)
        a_coarResid).data i p c = a_coarResid.data i p c := by
    intro i p c hown hc
    have hspec := DisjointBoxLayout.owner_spec _ _ _ hown
    have hv : (a_coarResid.validBox i).contains p := hspec.2
    rw [hbase]
    simp [hspec.1, hv, hc, hown]
  refine ⟨rfl, (hshape a_coarResid).2, ?_, ?_, ?_, ?_, ?_⟩
  · intro i p c hi hp hc hcov
    exact (AMRNorm.coarTemp_data env a_coarResid a_fineResid a_refRat i p c).1
      ⟨hi, hp, hc, hcov⟩
  · intro i p c hown hc hcov
    have hspec := DisjointBoxLayout.owner_spec _ _ _ hown
    have hv : (a_coarResid.validBox i).contains p := hspec.2
    rw [(AMRNorm.coarTemp_data env a_coarResid a_fineResid a_refRat i p c).2
      (fun h => hcov h.2.2.2), hbase]
    simp [hspec.1, hv, hc, hown]
  · intro hf
    have hT : AMRNorm.coarTemp env a_coarResid a_fineResid a_refRat
        = LevelDataOps.assign (LevelDataOps.create env.uninitialised a_coarResid)
            a_coarResid := by
      unfold AMRNorm.coarTemp
      simp [hf]
    refine ⟨hT, ?_⟩
    rw [hT]
    exact LevelData.copyTo_valueAt_eq a_coarResid _ rfl rfl
  · intro other hghost hl hn hg hagree
    have hT : AMRNorm.coarTemp env other a_fineResid a_refRat
        = AMRNorm.coarTemp env a_coarResid a_fineResid a_refRat := by
      apply LevelData.ext_fields
      · rw [(hshape other).1, (hshape a_coarResid).1]
      · rw [(hshape other).2.1, (hshape a_coarResid).2.1, hl]
      · rw [(hshape other).2.2.1, (hshape a_coarResid).2.2.1, hn]
      · rw [(hshape other).2.2.2, (hshape a_coarResid).2.2.2, hg]
      · intro i p c
        have hfab : (other.fab i).box = (a_coarResid.fab i).box := by
          simp only [LevelData.fab, LevelData.validBox, hl, hg]
        have hvb : other.validBox i = a_coarResid.validBox i := by
          simp only [LevelData.validBox, hl]
        have h1 := AMRNorm.coarTemp_data env other a_fineResid a_refRat i p c
        have h2 := AMRNorm.coarTemp_data env a_coarResid a_fineResid a_refRat i p c
        rw [hl, hn, hfab] at h1
        by_cases hA : i < a_coarResid.disjointBoxLayout.length ∧
            (a_coarResid.fab i).box.contains p ∧ c < a_coarResid.nComp ∧
            AMRNorm.covered a_fineResid a_refRat p
        · rw [h1.1 hA, h2.1 hA]
        · rw [h1.2 hA, h2.2 hA, hbase, hbase, hl, hn, hvb]
          by_cases hG : i < a_coarResid.disjointBoxLayout.length ∧
              (a_coarResid.validBox i).contains p ∧ c < a_coarResid.nComp
          · rw [if_pos hG, if_pos hG]
            obtain ⟨j, hj⟩ := DisjointBoxLayout.owner_isSome _ p i hG.1 hG.2.1
            have hbox : (a_coarResid.fab i).box.contains p :=
              Box.grow_contains _ _ _ hghost hG.2.1
            have hncov : ¬ AMRNorm.covered a_fineResid a_refRat p :=
              fun h => hA ⟨hG.1, hbox, hG.2.2, h⟩
            simp only [hj]
            exact hagree j p c hj hG.2.2 hncov
          · rw [if_neg hG, if_neg hG]
    show norm env r (AMRNorm.coarTemp env other a_fineResid a_refRat) a_ord
      = norm env r (AMRNorm.coarTemp env a_coarResid a_fineResid a_refRat) a_ord
    rw [hT]
  · intro hnorm
    have hwrap : ∀ x y : LevelData D, x.sameOnValid y →
        localMaxNorm env r x = localMaxNorm env r y := by
      intro x y hxy
      simp only [localMaxNorm, hnorm x y hxy]
    constructor
    · show localMaxNorm env r (AMRNorm.coarTemp env a_coarResid a_fineResid a_refRat) = _
      apply hwrap
      refine ⟨(hshape a_coarResid).2.1, (hshape a_coarResid).2.2.1,
        (hshape a_coarResid).2.2.2, ?_⟩
      intro i p c ho hc
      rw [(hshape a_coarResid).2.1] at ho
      rw [(hshape a_coarResid).2.2.1] at hc
      have hd := AMRNorm.coarTemp_data env a_coarResid a_fineResid a_refRat i p c
      by_cases hA : i < a_coarResid.disjointBoxLayout.length ∧
          (a_coarResid.fab i).box.contains p ∧ c < a_coarResid.nComp ∧
          AMRNorm.covered a_fineResid a_refRat p
      · rw [hd.1 hA]
        simp only [AMRNorm.zeroCovered, hA, and_self, if_true]
      · rw [hd.2 hA, hown i p c ho hc]
        simp only [AMRNorm.zeroCovered, hA, if_false]
    · intro hf
      show localMaxNorm env r (AMRNorm.coarTemp env a_coarResid a_fineResid a_refRat) = _
      apply hwrap
      refine ⟨(hshape a_coarResid).2.1, (hshape a_coarResid).2.2.1,
        (hshape a_coarResid).2.2.2, ?_⟩
      intro i p c ho hc
      rw [(hshape a_coarResid).2.1] at ho
      rw [(hshape a_coarResid).2.2.1] at hc
      have hd := AMRNorm.coarTemp_data env a_coarResid a_fineResid a_refRat i p c
      rw [hd.2 (fun h => by simp [AMRNorm.covered, hf] at h), hown i p c ho hc]

/-- Instance of C4: the coarse cells `4..5` lie under the finer patch `[8..11]`
at ratio 2; changing the coarse values there does not change `AMRNorm`, which is
the norm of the coarse field with the cells `4..5` zeroed. -/
theorem AMRNorm_ignores_covered_cells_witness :
    AMRNorm (Example.env 1 4 false) (Example.run 1 2 1) (Example.fieldWithBump 0)
        (Example.fineField 1) 2 0
      = AMRNorm (Example.env 1 4 false) (Example.run 1 2 1) (Example.field 1 5)
        (Example.fineField 1) 2 0 ∧
    AMRNorm (Example.env 1 4 false) (Example.run 1 2 1) (Example.field 1 5)
        (Example.fineField 1) 2 0
      = localMaxNorm (Example.env 1 4 false) (Example.run 1 2 1)
          (AMRNorm.zeroCovered (Example.field 1 5) (Example.fineField 1) 2) :=
  ⟨(AMRNorm_ignores_covered_cells (Example.env 1 4 false) (Example.run 1 2 1)
      (Example.field 1 5) (Example.fineField 1) 2 0).2.2.2.2.2.1 (Example.fieldWithBump 0)
      (fun _ => by simp [Example.field, IntVect.Unit]) rfl rfl rfl
      (fun i p c _ _ hcov => by
        have hb : ¬ (4 ≤ p 0 ∧ p 0 ≤ 5) := by
          intro hb
          apply hcov
          refine ⟨rfl, Example.box 1 8 11, List.mem_singleton_self _, ?_⟩
          intro d
          have hd : d = 0 := Subsingleton.elim _ _
          subst hd
          have h8 : Int.fdiv 8 2 = 4 := by decide
          have h11 : Int.fdiv 11 2 = 5 := by decide
          simp only [Box.coarsen, Example.box, h8, h11]
          exact hb
        simp only [Example.fieldWithBump, Example.field, hb, if_false]),
    ((AMRNorm_ignores_covered_cells (Example.env 1 4 false) (Example.run 1 2 1)
      (Example.field 1 5) (Example.fineField 1) 2 0).2.2.2.2.2.2
      (fun x y hxy => by
        simp only [Example.env, LevelData.valueAt_congr x y hxy])).1⟩

/-- C5. `AMRRestrictS` with `a_skip_res` false restricts, at ratio
`m_refToCoarser`, the field `AMRResidualNF` computes into the scratch field from
`a_correction`, `a_coarseCorrection`, right-hand side `a_residual` and homogeneous
physical boundary conditions; the calls are the coarse-fine ghost fill,
`residualI` and `restrict`.  With `a_skip_res` true it restricts, at ratio
`m_refToCoarser`, the scratch field after `assignLocal(a_scratch, a_residual)`,
which holds the values of `a_residual` on the cells common to both; the only
call is `restrict`, so no residual is computed.  `AMRRestrict` is `AMRRestrictS`
on the scratch field `create(r, a_residual)`, which has the shape of
`a_residual`, so that with `a_skip_res` true the restricted field holds the
values of `a_residual` on every cell of every patch.  In all cases `a_residual`
is returned unchanged. -/
theorem AMRRestrict_restricts_residual_or_copy {D : Nat} (env : Env D) (r : Run D)
    (a_resCoarse a_residual a_correction a_coarseCorrection a_scratch : LevelData D) :
    ((AMRRestrictS env r a_resCoarse a_residual a_correction a_coarseCorrection a_scratch
          false).resCoarse
        = (env.restrict
            (AMRResidualNF env r a_scratch a_correction a_coarseCorrection a_residual
              true).run.op
            a_resCoarse
            (AMRResidualNF env r a_scratch a_correction a_coarseCorrection a_residual
              true).lhs
            (AMRResidualNF env r a_scratch a_correction a_coarseCorrection a_residual
              true).run.op.m_refToCoarser).1 ∧
      (AMRRestrictS env r a_resCoarse a_residual a_correction a_coarseCorrection a_scratch
          false).run.log
        = r.log ++ [Event.fillCoarseFineGhostsNonHomo, Event.residualI true,
            Event.restrict
              (AMRResidualNF env r a_scratch a_correction a_coarseCorrection a_residual
                true).run.op.m_refToCoarser] ∧
      (AMRRestrictS env r a_resCoarse a_residual a_correction a_coarseCorrection a_scratch
          false).residual = a_residual) ∧
    ((AMRRestrictS env r a_resCoarse a_residual a_correction a_coarseCorrection a_scratch
          true).resCoarse
        = (env.restrict r.op a_resCoarse (assignLocal a_scratch a_residual)
            r.op.m_refToCoarser).1 ∧
      (∀ i p c, i < a_scratch.disjointBoxLayout.length → (a_scratch.fab i).box.contains p →
        (a_residual.fab i).box.contains p → c < a_scratch.nComp →
        (assignLocal a_scratch a_residual).data i p c = a_residual.data i p c) ∧
      (AMRRestrictS env r a_resCoarse a_residual a_correction a_coarseCorrection a_scratch
          true).run.log = r.log ++ [Event.restrict r.op.m_refToCoarser] ∧
      (AMRRestrictS env r a_resCoarse a_residual a_correction a_coarseCorrection a_scratch
          true).residual = a_residual) ∧
    (∀ a_skip_res,
      AMRRestrict env r a_resCoarse a_residual a_correction a_coarseCorrection a_skip_res
        = AMRRestrictS env r a_resCoarse a_residual a_correction a_coarseCorrection
            (create env a_residual) a_skip_res) ∧
    ((AMRRestrict env r a_resCoarse a_residual a_correction a_coarseCorrection
          false).resCoarse
        = (env.restrict
            (AMRResidualNF env r (create env a_residual) a_correction a_coarseCorrection
              a_residual true).run.op
            a_resCoarse
            (AMRResidualNF env r (create env a_residual) a_correction a_coarseCorrection
              a_residual true).lhs
            (AMRResidualNF env r (create env a_residual) a_correction a_coarseCorrection
              a_residual true).run.op.m_refToCoarser).1 ∧
      (AMRRestrict env r a_resCoarse a_residual a_correction a_coarseCorrection
          false).residual = a_residual) ∧
    (∃ copy, (AMRRestrict env r a_resCoarse a_residual a_correction a_coarseCorrection
          true).resCoarse
        = (env.restrict r.op a_resCoarse copy r.op.m_refToCoarser).1 ∧
      copy.disjointBoxLayout = a_residual.disjointBoxLayout ∧
      copy.nComp = a_residual.nComp ∧ copy.ghostVect = a_residual.ghostVect ∧
      (∀ i p c, i < a_residual.disjointBoxLayout.length → (a_residual.fab i).box.contains p →
        c < a_residual.nComp → copy.data i p c = a_residual.data i p c) ∧
      (AMRRestrict env r a_resCoarse a_residual a_correction a_coarseCorrection
          true).run.log = r.log ++ [Event.restrict r.op.m_refToCoarser] ∧
      (AMRRestrict env r a_resCoarse a_residual a_correction a_coarseCorrection
          true).residual = a_residual) := by
  refine ⟨⟨rfl, ?_, rfl⟩, ⟨rfl, ?_, ?_, rfl⟩, fun _ => rfl, ⟨rfl, rfl⟩, ?_⟩
  · simp [AMRRestrictS, AMRResidualNF, restrict, residualI, fillCoarseFineGhostsNonHomo]
  · intro i p c hi hl hr hc
    exact assignLocal_copies a_scratch a_residual i p c hi hl hr hc
  · simp [AMRRestrictS, restrict]
  · refine ⟨assignLocal (create env a_residual) a_residual, rfl, rfl, rfl, rfl, ?_, ?_, rfl⟩
    · intro i p c hi hp hc
      exact assignLocal_copies (create env a_residual) a_residual i p c hi hp hp hc
    · simp [AMRRestrict, AMRRestrictS, restrict]

/-- C6. If the domain box has fewer than `a_refRatio*8` cells in every
direction (the product and the sizes being representable as `int`), or if both
`a_gridsFiner` and `a_gridsCoarser` are null, the AMR `define` returns without
defining `m_homoInterp` or `m_nonHomoInterp`: the two members keep their
previous state and the only call it can have made is the definition of the flux
register.  Spacing, both ratios, domain, boundary condition, copier, coarse-fine
region and grids are set from the arguments. -/
theorem define_skips_interpolators {D : Nat} (env : Env D) (r : Run D)
    (a_grids : DisjointBoxLayout D) (a_gridsFiner a_gridsCoarser : Option (DisjointBoxLayout D))
    (a_dxLevel : Real) ( a_refRatio : Int) (a_refRatioFiner : Int) (a_domain : ProblemDomain D)
    (a_bc : BoundaryCondition) (a_exchange : Copier) (a_cfregion : CFRegion) (a_nComps : Int)
    (hskip : ((∀ d, a_domain.domainBox.size d < a_refRatio * s_minCoarsestDomainSize) ∧
        inIntRange (a_refRatio * s_minCoarsestDomainSize) ∧
        (∀ d, inIntRange (a_domain.domainBox.size d))) ∨
      (a_gridsFiner = none ∧ a_gridsCoarser = none)) :
    ∃ r1, define env r a_grids a_gridsFiner a_gridsCoarser a_dxLevel a_refRatio
        a_refRatioFiner a_domain a_bc a_exchange a_cfregion a_nComps = Except.ok r1 ∧
      r1.op.m_homoInterp = r.op.m_homoInterp ∧
      r1.op.m_nonHomoInterp = r.op.m_nonHomoInterp ∧
      r1.log = r.log ++ (if a_gridsFiner.isSome then [Event.fluxRegisterDefine] else []) ∧
      r1.op.m_dx = a_dxLevel ∧ r1.op.m_refToCoarser = a_refRatio ∧
      r1.op.m_refToFiner = a_refRatioFiner ∧ r1.op.m_domain = a_domain ∧
      r1.op.m_bc = a_bc ∧ r1.op.m_exchangeCopier = a_exchange ∧
      r1.op.m_cfregion = a_cfregion ∧ r1.op.m_grids = a_grids := by
  have hnot : ¬ ((a_gridsFiner.isSome = true ∨ a_gridsCoarser.isSome = true) ∧
      define.exceedsThreshold a_refRatio a_domain) := by
    rintro ⟨hany, hbig⟩
    rcases hskip with ⟨hlt, hthr, hsize⟩ | ⟨h1, h2⟩
    · obtain ⟨d, hd⟩ := (define.exceedsThreshold_iff a_refRatio a_domain hthr hsize).mp hbig
      exact absurd hd (not_lt.mpr (le_of_lt (hlt d)))
    · rw [h1, h2] at hany
      simp at hany
  exact define_returns_early env r a_grids a_gridsFiner a_gridsCoarser a_dxLevel a_refRatio
    a_refRatioFiner a_domain a_bc a_exchange a_cfregion a_nComps hnot

/-- Instance of C6: an 8-cell domain at refinement ratio 2, with a finer level. -/
theorem define_skips_interpolators_witness :
    ∃ r1, define (Example.env 1 4 false) (Example.run 1 2 1) (Example.grids 1)
        (some [Example.box 1 0 7]) (some [Example.box 1 0 3]) (1 / 2) 2 2
        (Example.domain 1 8) ⟨1⟩ ⟨2⟩ ⟨3⟩ 1 = Except.ok r1 ∧
      r1.op.m_homoInterp = none ∧ r1.op.m_nonHomoInterp = none ∧
      r1.log = [Event.fluxRegisterDefine] ∧ r1.op.m_refToCoarser = 2 :=
  (define_skips_interpolators (Example.env 1 4 false) (Example.run 1 2 1) (Example.grids 1)
    (some [Example.box 1 0 7]) (some [Example.box 1 0 3]) (1 / 2) 2 2
    (Example.domain 1 8) ⟨1⟩ ⟨2⟩ ⟨3⟩ 1
    (Or.inl ⟨fun _ => by
        simp [Example.domain, Example.box, Box.size, s_minCoarsestDomainSize],
      by simp [inIntRange, s_minCoarsestDomainSize],
      fun _ => by simp [inIntRange, Example.domain, Example.box, Box.size]⟩)).elim
    (fun r1 h => ⟨r1, h.1, h.2.1, h.2.2.1, by simpa [Example.run] using h.2.2.2.1,
      h.2.2.2.2.2.1⟩)

/-- C7. For `Order` 2 or 4, non-zero spacing and non-zero diagonal coefficient
`d` (`alpha - 2*dimension*beta/h^2` for order 2, `alpha - 30*dimension*beta/(12*h^2)`
for order 4, in exact arithmetic), and when the component-count assertion lets
the call through, the multiplier of `preCond` is `1/d` and `preCond(a_phi, a_rhs)`
is `relax(a_phi, a_rhs, 2)` started from the field that has the shape of `a_phi`
and the value `a_rhs * (1/d)` on every cell common to the two fields; unless
the coefficients are the identity ones this `relax` makes exactly two sweeps.
For `alpha = 0`, `beta = 1`, dimension 2 and `h = 1` the coefficient is -4 for
order 2 and -5 for order 4. -/
theorem preCond_scales_and_relaxes_twice {D : Nat} (env : Env D) (r : Run D)
    (a_phi a_rhs : LevelData D)
    (horder : env.Order = 2 ∨ env.Order = 4)
    (_hh : r.op.m_dx ≠ 0)
    (_hdiag : diagonalCoefficient env.Order D r.op.m_alpha r.op.m_beta r.op.m_dx ≠ 0)
    (hassert : env.NDEBUG = true ∨ a_phi.nComp = a_rhs.nComp) :
    preCondMult env r.op
      = 1 / diagonalCoefficient env.Order D r.op.m_alpha r.op.m_beta r.op.m_dx ∧
    preCond env r a_phi a_rhs
      = relax env r
          (preCondInit a_phi a_rhs
            (1 / diagonalCoefficient env.Order D r.op.m_alpha r.op.m_beta r.op.m_dx))
          a_rhs 2 ∧
    ((preCondInit a_phi a_rhs
          (1 / diagonalCoefficient env.Order D r.op.m_alpha r.op.m_beta
            r.op.m_dx)).disjointBoxLayout = a_phi.disjointBoxLayout ∧
      (preCondInit a_phi a_rhs
          (1 / diagonalCoefficient env.Order D r.op.m_alpha r.op.m_beta
            r.op.m_dx)).nComp = a_phi.nComp ∧
      (preCondInit a_phi a_rhs
          (1 / diagonalCoefficient env.Order D r.op.m_alpha r.op.m_beta
            r.op.m_dx)).ghostVect = a_phi.ghostVect) ∧
    (∀ i p c, i < a_phi.disjointBoxLayout.length → (a_phi.fab i).box.contains p →
      (a_rhs.fab i).box.contains p → c < a_phi.nComp →
      (preCondInit a_phi a_rhs
          (1 / diagonalCoefficient env.Order D r.op.m_alpha r.op.m_beta
            r.op.m_dx)).data i p c
        = a_rhs.data i p c
          * (1 / diagonalCoefficient env.Order D r.op.m_alpha r.op.m_beta r.op.m_dx)) ∧
    (¬ (r.op.m_alpha = 1 ∧ r.op.m_beta = 0) →
      ∃ e1 r1, preCond env r a_phi a_rhs = Except.ok (e1, r1) ∧
        r1.log = r.log ++ [Event.cacheOpDiag, Event.levelJacobi, Event.cacheOpDiag,
          Event.levelJacobi]) ∧
    diagonalCoefficient 2 2 0 1 1 = -4 ∧ diagonalCoefficient 4 2 0 1 1 = -5 := by
  have hmult := preCondMult_eq env r.op horder
  have hok : CH_assert env (decide (a_phi.nComp = a_rhs.nComp)) = true := by
    rcases hassert with h | h <;> simp [CH_assert, h]
  have hpre : preCond env r a_phi a_rhs
      = relax env r
          (preCondInit a_phi a_rhs
            (1 / diagonalCoefficient env.Order D r.op.m_alpha r.op.m_beta r.op.m_dx))
          a_rhs 2 := by
    unfold preCond
    rw [if_pos hok, hmult]
  refine ⟨hmult, hpre, ⟨rfl, rfl, rfl⟩, ?_, ?_, ?_, ?_⟩
  · intro i p c hi hl hr hc
    exact preCondInit_data a_phi a_rhs _ i p c hi hl hr hc
  · intro hne
    obtain ⟨e1, r1, h1, h2⟩ := relaxLoop_jacobi env a_rhs 2
      (preCondInit a_phi a_rhs
        (1 / diagonalCoefficient env.Order D r.op.m_alpha r.op.m_beta r.op.m_dx)) r
    refine ⟨e1, r1, ?_, ?_⟩
    · rw [hpre]
      unfold relax
      rw [if_neg hne]
      exact h1
    · rw [h2]
      simp [jacobiEvents]
  · norm_num [diagonalCoefficient]
  · norm_num [diagonalCoefficient]

/-- Instance of C7: order 2 in two dimensions with `alpha = 0`, `beta = 1`, `h = 1`. -/
theorem preCond_scales_and_relaxes_twice_witness :
    preCondMult (Example.env 2 2 false) (Example.run 2 0 1).op = 1 / (-4) ∧
    preCond (Example.env 2 2 false) (Example.run 2 0 1) (Example.field 2 0) (Example.field 2 3)
      = relax (Example.env 2 2 false) (Example.run 2 0 1)
          (preCondInit (Example.field 2 0) (Example.field 2 3) (1 / (-4)))
          (Example.field 2 3) 2 :=
  have hd : diagonalCoefficient (Example.env 2 2 false).Order 2 (Example.run 2 0 1).op.m_alpha
      (Example.run 2 0 1).op.m_beta (Example.run 2 0 1).op.m_dx = -4 := by
    norm_num [diagonalCoefficient, Example.env, Example.run, Example.members]
  have h := preCond_scales_and_relaxes_twice (Example.env 2 2 false) (Example.run 2 0 1)
    (Example.field 2 0) (Example.field 2 3) (Or.inl rfl)
    (by norm_num [Example.run, Example.members])
    (by rw [hd]; norm_num) (Or.inr rfl)
  ⟨by rw [← hd]; exact h.1, by rw [← hd]; exact h.2.1⟩

/-- C8 (behaviour of the code). `s_relaxMode` is 0 for every `Order`, so for
`Order = 2` and coefficients other than `(1, 0)`, `relax` returns after
`a_iterations` point-Jacobi sweeps (`cacheOpDiag`, `levelJacobi`) and never
calls `levelGSRB`. -/
theorem relax_order2_runs_point_jacobi {D : Nat} (env : Env D) (r : Run D)
    (a_e a_residual : LevelData D) (a_iterations : Int)
    (_horder : env.Order = 2) (hne : ¬ (r.op.m_alpha = 1 ∧ r.op.m_beta = 0)) :
    s_relaxMode env.Order = 0 ∧
    ∃ e1 r1, relax env r a_e a_residual a_iterations = Except.ok (e1, r1) ∧
      r1.log = r.log ++ jacobiEvents a_iterations.toNat ∧
      Event.levelGSRB ∉ jacobiEvents a_iterations.toNat := by
  refine ⟨rfl, ?_⟩
  obtain ⟨e1, r1, h1, h2⟩ := relaxLoop_jacobi env a_residual a_iterations.toNat a_e r
  refine ⟨e1, r1, ?_, h2, not_mem_jacobiEvents _⟩
  unfold relax
  rw [if_neg hne]
  exact h1

/-- Instance of C8: `Order = 2`, `alpha = 0`, `beta = 1`, one iteration. -/
theorem relax_order2_runs_point_jacobi_witness :
    s_relaxMode (Example.env 1 2 false).Order = 0 ∧
    ∃ e1 r1, relax (Example.env 1 2 false) (Example.run 1 0 1) (Example.field 1 0)
        (Example.field 1 3) 1 = Except.ok (e1, r1) ∧
      r1.log = (Example.run 1 0 1).log ++ jacobiEvents (1 : Int).toNat ∧
      Event.levelGSRB ∉ jacobiEvents (1 : Int).toNat :=
  relax_order2_runs_point_jacobi (Example.env 1 2 false) (Example.run 1 0 1)
    (Example.field 1 0) (Example.field 1 3) 1 rfl
    (by norm_num [Example.run, Example.members])

/-- C9 (behaviour of the code). After the `define` for `MGLevelOp`, which has no
finer or coarser AMR level, `refToCoarser()` returns 2, not 1; after the AMR
`define` it returns the argument `a_refRatio`, whether or not `a_gridsCoarser`
is null. -/
theorem refToCoarser_after_define {D : Nat} (env : Env D) (r : Run D)
    (a_grids : DisjointBoxLayout D) (a_dx : Real) (a_domain : ProblemDomain D)
    (a_bc : BoundaryCondition) (a_exchange : Copier) (a_cfregion : CFRegion) :
    refToCoarser (define_MGLevelOp r a_grids a_dx a_domain a_bc a_exchange a_cfregion) = 2 ∧
    refToCoarser (define_MGLevelOp r a_grids a_dx a_domain a_bc a_exchange a_cfregion) ≠ 1 ∧
    ∀ (a_gridsFiner a_gridsCoarser : Option (DisjointBoxLayout D)) ( a_refRatio : Int)
      (a_refRatioFiner a_nComps : Int) (r1 : Run D),
      define env r a_grids a_gridsFiner a_gridsCoarser a_dx a_refRatio a_refRatioFiner
        a_domain a_bc a_exchange a_cfregion a_nComps = Except.ok r1 →
      refToCoarser r1 = a_refRatio := by
  refine ⟨rfl, by simp [refToCoarser, define_MGLevelOp], ?_⟩
  intro a_gridsFiner a_gridsCoarser a_refRatio a_refRatioFiner a_nComps r1 h
  unfold define at h
  simp only [] at h
  cases a_gridsFiner <;> simp only [] at h <;> split at h
  all_goals first
    | (cases h; rfl)
    | (split at h
       · cases h
       · cases h; rfl)

/-- C10. `fillNonCoarseFineGhosts` and `fillNonCoarseFineGhosts_FluxBox` always
return; each makes two calls: first the exchange `phi.exchange`, then the
domain-boundary fill (`fillDomainBdryGhosts`, respectively `m_bc->fillGhostCells`
with `m_dx`), which receives the exchanged field and the caller's `a_homo`.
`s_exchangeMode` is 0, and `fillInterPatchGhosts` returns the plain exchange
for every input: neither `exchangeNoOverlap` nor the abort is reached. -/
theorem fillNonCoarseFineGhosts_exchange_then_boundary {D : Nat} (env : Env D) (r : Run D)
    (phi : LevelData D) (a_homo : Bool) :
    s_exchangeMode = 0 ∧
    fillInterPatchGhosts env r phi
      = Except.ok (env.exchange phi, { op := r.op, log := r.log ++ [Event.exchange] }) ∧
    fillNonCoarseFineGhosts env r phi a_homo
      = Except.ok ((env.fillDomainBdryGhosts r.op (env.exchange phi) a_homo).1,
          { op := (env.fillDomainBdryGhosts r.op (env.exchange phi) a_homo).2
            log := r.log ++ [Event.exchange, Event.fillDomainBdryGhosts a_homo] }) ∧
    fillNonCoarseFineGhosts_FluxBox env r phi a_homo
      = Except.ok (env.bcFillGhostCells r.op.m_bc (env.exchange phi) r.op.m_dx a_homo,
          { op := r.op, log := r.log ++ [Event.exchange, Event.bcFillGhostCells a_homo] }) := by
  have h : fillInterPatchGhosts env r phi
      = Except.ok (env.exchange phi, { op := r.op, log := r.log ++ [Event.exchange] }) := by
    simp [fillInterPatchGhosts, s_exchangeMode]
  refine ⟨rfl, h, ?_, ?_⟩
  · simp [fillNonCoarseFineGhosts, h, fillDomainBdryGhosts]
  · simp [fillNonCoarseFineGhosts_FluxBox, h]

/-- C11 (behaviour of the code). For a non-empty data box, the edge box of
`getFlux(a_flux, a_data, a_dir, a_ref)` is non-empty exactly when the data box
has at least `2*s_nGhosts` cells in direction `a_dir`.  For `Order` 2 this is
"at least two cells": only a box one cell wide fails the assertion.  For `Order`
4 it is "at least four cells": the data boxes two and three cells wide have an
empty edge box, and `getFlux` aborts on them in a debug build; a box four cells
wide passes. -/
theorem getFlux_edgebox_needs_order_cells :
    (∀ (D Order : Nat) (a_data : FArrayBox D) (a_dir : Fin D), a_data.box.isEmpty = false →
      ((getFlux.edgebox Order a_data a_dir).isEmpty = false ↔
        2 * s_nGhosts Order ≤ a_data.box.size a_dir)) ∧
    (∀ (D : Nat) (a_data : FArrayBox D) (a_dir : Fin D), a_data.box.isEmpty = false →
      ((getFlux.edgebox 2 a_data a_dir).isEmpty = false ↔ 2 ≤ a_data.box.size a_dir)) ∧
    (∀ (D : Nat) (a_data : FArrayBox D) (a_dir : Fin D), a_data.box.isEmpty = false →
      ((getFlux.edgebox 4 a_data a_dir).isEmpty = false ↔ 4 ≤ a_data.box.size a_dir)) ∧
    ((Example.fab 1 0 1).box.size 0 = 2 ∧
      (getFlux.edgebox 4 (Example.fab 1 0 1) 0).isEmpty = true ∧
      getFlux (Example.env 1 4 false) (Example.kernels 1) (Example.members 1 0 1)
        (Example.fab 1 0 0) (Example.fab 1 0 1) 0 1
        = Except.error "CH_assert(!edgebox.isEmpty())") ∧
    ((Example.fab 1 0 2).box.size 0 = 3 ∧
      (getFlux.edgebox 4 (Example.fab 1 0 2) 0).isEmpty = true) ∧
    ((Example.fab 1 0 3).box.size 0 = 4 ∧
      (getFlux.edgebox 4 (Example.fab 1 0 3) 0).isEmpty = false) := by
  have hnonempty : ∀ hi : Int, 0 ≤ hi → (Example.fab 1 0 hi).box.isEmpty = false := by
    intro hi h
    simp [Example.fab, Example.box, Box.isEmpty, h]
  have h4 : ∀ hi : Int, 0 ≤ hi →
      ((getFlux.edgebox 4 (Example.fab 1 0 hi) 0).isEmpty = false ↔ 4 ≤ hi + 1) := by
    intro hi h
    rw [getFlux.edgebox_isEmpty_iff 4 _ 0 (hnonempty hi h)]
    simp [s_nGhosts, Example.fab, Example.box, Box.size]
  have hE1 : (getFlux.edgebox 4 (Example.fab 1 0 1) 0).isEmpty = true := by
    have := (h4 1 (by norm_num)).not
    simpa using this
  have hE2 : (getFlux.edgebox 4 (Example.fab 1 0 2) 0).isEmpty = true := by
    have := (h4 2 (by norm_num)).not
    simpa using this
  refine ⟨?_, ?_, ?_, ⟨?_, hE1, ?_⟩, ⟨?_, hE2⟩, ⟨?_, ?_⟩⟩
  · intro D Order a_data a_dir hdata
    exact getFlux.edgebox_isEmpty_iff Order a_data a_dir hdata
  · intro D a_data a_dir hdata
    rw [getFlux.edgebox_isEmpty_iff 2 a_data a_dir hdata]
    simp [s_nGhosts]
  · intro D a_data a_dir hdata
    rw [getFlux.edgebox_isEmpty_iff 4 a_data a_dir hdata]
    simp [s_nGhosts]
  · simp [Example.fab, Example.box, Box.size]
  · have hO : (Example.env 1 4 false).Order = 4 := rfl
    have hN : (Example.env 1 4 false).NDEBUG = false := rfl
    simp only [getFlux, CH_assert, hO, hN, hE1, Bool.false_or, Bool.not_true]
    rfl
  · simp [Example.fab, Example.box, Box.size]
  · simp [Example.fab, Example.box, Box.size]
  · exact (h4 3 (by norm_num)).mpr (by norm_num)

/-- C12 (behaviour of the code). With the product `a_refRatio*8` and the sizes
of the domain box representable as `int`:
when `a_refRatio == 1` or `a_gridsCoarser` is non-null, the AMR `define`
returns, and it defines the two coarse-fine interpolators if and only if at
least one of `a_gridsFiner`, `a_gridsCoarser` is non-null and the domain box has
more than `a_refRatio*8` cells in at least one direction (both members defined,
the two definitions last in the log; otherwise both members keep their state and
no such call is made; exactly `a_refRatio*8` cells in every direction gives no
interpolators, below the threshold in one direction and above it in another
gives them).
When `a_gridsFiner` is non-null, `a_gridsCoarser` is null, `a_refRatio != 1` and
some direction exceeds the threshold, `define` does not define the interpolators:
it dereferences the null `a_gridsCoarser`.  This happens for a finer level on
`[0..15]`, no coarser level, `a_refRatio = 2` and a domain of 64 cells. -/
theorem define_builds_interpolators_or_dereferences_null :
    (∀ (D : Nat) (env : Env D) (r : Run D) (a_grids : DisjointBoxLayout D)
      (a_gridsFiner a_gridsCoarser : Option (DisjointBoxLayout D)) (a_dxLevel : Real)
      ( a_refRatio : Int) (a_refRatioFiner : Int) (a_domain : ProblemDomain D)
      (a_bc : BoundaryCondition) (a_exchange : Copier) (a_cfregion : CFRegion)
      (a_nComps : Int),
      (a_refRatio = 1 ∨ a_gridsCoarser.isSome = true) →
      inIntRange (a_refRatio * s_minCoarsestDomainSize) →
      (∀ d, inIntRange (a_domain.domainBox.size d)) →
      ∃ r1, define env r a_grids a_gridsFiner a_gridsCoarser a_dxLevel a_refRatio
          a_refRatioFiner a_domain a_bc a_exchange a_cfregion a_nComps = Except.ok r1 ∧
        (((a_gridsFiner.isSome = true ∨ a_gridsCoarser.isSome = true) ∧
            ∃ d, a_refRatio * s_minCoarsestDomainSize < a_domain.domainBox.size d) →
          r1.op.m_homoInterp.isSome = true ∧ r1.op.m_nonHomoInterp.isSome = true ∧
          r1.log = r.log ++ (if a_gridsFiner.isSome then [Event.fluxRegisterDefine] else [])
            ++ [Event.interpDefine true, Event.interpDefine false]) ∧
        (¬ ((a_gridsFiner.isSome = true ∨ a_gridsCoarser.isSome = true) ∧
            ∃ d, a_refRatio * s_minCoarsestDomainSize < a_domain.domainBox.size d) →
          r1.op.m_homoInterp = r.op.m_homoInterp ∧
          r1.op.m_nonHomoInterp = r.op.m_nonHomoInterp ∧
          r1.log = r.log ++
            (if a_gridsFiner.isSome then [Event.fluxRegisterDefine] else [])) ∧
        ((∀ b, Event.interpDefine b ∈ r1.log.drop r.log.length) ↔
          ((a_gridsFiner.isSome = true ∨ a_gridsCoarser.isSome = true) ∧
            ∃ d, a_refRatio * s_minCoarsestDomainSize < a_domain.domainBox.size d)) ∧
        ((∀ d, a_domain.domainBox.size d = a_refRatio * s_minCoarsestDomainSize) →
          r1.op.m_homoInterp = r.op.m_homoInterp ∧
          r1.op.m_nonHomoInterp = r.op.m_nonHomoInterp) ∧
        ((a_gridsFiner.isSome = true ∨ a_gridsCoarser.isSome = true) →
          (∃ d1 d2, a_domain.domainBox.size d1 < a_refRatio * s_minCoarsestDomainSize ∧
            a_refRatio * s_minCoarsestDomainSize < a_domain.domainBox.size d2) →
          r1.op.m_homoInterp.isSome = true ∧ r1.op.m_nonHomoInterp.isSome = true)) ∧
    (∀ (D : Nat) (env : Env D) (r : Run D) (a_grids gridsFiner : DisjointBoxLayout D)
      (a_dxLevel : Real) ( a_refRatio : Int) (a_refRatioFiner : Int)
      (a_domain : ProblemDomain D) (a_bc : BoundaryCondition) (a_exchange : Copier)
      (a_cfregion : CFRegion) (a_nComps : Int),
      a_refRatio ≠ 1 →
      inIntRange (a_refRatio * s_minCoarsestDomainSize) →
      (∀ d, inIntRange (a_domain.domainBox.size d)) →
      (∃ d, a_refRatio * s_minCoarsestDomainSize < a_domain.domainBox.size d) →
      define env r a_grids (some gridsFiner) none a_dxLevel a_refRatio a_refRatioFiner
          a_domain a_bc a_exchange a_cfregion a_nComps
        = Except.error "null a_gridsCoarser dereferenced") ∧
    define (Example.env 1 4 false) (Example.run 1 2 1) (Example.grids 1)
        (some [Example.box 1 0 15]) none (1 / 2) 2 2 (Example.domain 1 64) ⟨1⟩ ⟨2⟩ ⟨3⟩ 1
      = Except.error "null a_gridsCoarser dereferenced" := by
  refine ⟨?_, ?_, ?_⟩
  · intro D env r a_grids a_gridsFiner a_gridsCoarser a_dxLevel a_refRatio a_refRatioFiner
      a_domain a_bc a_exchange a_cfregion a_nComps hderef hthr hsize
    have hiff := define.exceedsThreshold_iff a_refRatio a_domain hthr hsize
    by_cases hc : (a_gridsFiner.isSome = true ∨ a_gridsCoarser.isSome = true) ∧
        ∃ d, a_refRatio * s_minCoarsestDomainSize < a_domain.domainBox.size d
    · obtain ⟨cg, hcg⟩ : ∃ cg, (if a_refRatio = 1 then
          some (DisjointBoxLayout.coarsen a_grids a_refRatioFiner) else a_gridsCoarser)
          = some cg := by
        by_cases h1 : a_refRatio = 1
        · exact ⟨_, if_pos h1⟩
        · rcases hderef with h | h
          · exact absurd h h1
          · obtain ⟨g, hg⟩ := Option.isSome_iff_exists.mp h
            exact ⟨g, by rw [if_neg h1, hg]⟩
      obtain ⟨r1, h1, h2, h3, h4, _⟩ := define_builds env r a_grids a_gridsFiner
        a_gridsCoarser a_dxLevel a_refRatio a_refRatioFiner a_domain a_bc a_exchange
        a_cfregion a_nComps cg hc.1 (hiff.mpr hc.2) hcg
      have hsome : r1.op.m_homoInterp.isSome = true ∧
          r1.op.m_nonHomoInterp.isSome = true := by
        rw [h2, h3]; exact ⟨rfl, rfl⟩
      refine ⟨r1, h1, fun _ => ⟨hsome.1, hsome.2, h4⟩, fun hn => absurd hc hn, ?_, ?_,
        fun _ _ => hsome⟩
      · constructor
        · intro _; exact hc
        · intro _ b
          rw [h4, List.append_assoc, List.drop_left]
          cases b <;> simp
      · intro hall
        obtain ⟨d, hd⟩ := hc.2
        rw [hall d] at hd
        exact absurd hd (lt_irrefl _)
    · obtain ⟨r1, h1, h2, h3, h4, _⟩ := define_returns_early env r a_grids a_gridsFiner
        a_gridsCoarser a_dxLevel a_refRatio a_refRatioFiner a_domain a_bc a_exchange
        a_cfregion a_nComps (fun h => hc ⟨h.1, hiff.mp h.2⟩)
      refine ⟨r1, h1, fun h => absurd h hc, fun _ => ⟨h2, h3, h4⟩, ?_, fun _ => ⟨h2, h3⟩, ?_⟩
      · constructor
        · intro hall
          have := hall true
          rw [h4, List.drop_left] at this
          cases hf : a_gridsFiner.isSome <;> simp [hf] at this
        · intro h; exact absurd h hc
      · intro hany hdir
        obtain ⟨_, d2, _, hd2⟩ := hdir
        exact absurd ⟨hany, d2, hd2⟩ hc
  · intro D env r a_grids gridsFiner a_dxLevel a_refRatio a_refRatioFiner a_domain a_bc
      a_exchange a_cfregion a_nComps hone hthr hsize hbig
    exact define_null_coarser env r a_grids gridsFiner a_dxLevel a_refRatio a_refRatioFiner
      a_domain a_bc a_exchange a_cfregion a_nComps hone
      ((define.exceedsThreshold_iff a_refRatio a_domain hthr hsize).mpr hbig)
  · exact define_null_coarser (Example.env 1 4 false) (Example.run 1 2 1) (Example.grids 1)
      [Example.box 1 0 15] (1 / 2) 2 2 (Example.domain 1 64) ⟨1⟩ ⟨2⟩ ⟨3⟩ 1 (by decide)
      ⟨0, by
        simp only [Example.domain, Example.box, Box.size, s_minCoarsestDomainSize, wrapInt]
        decide⟩

/-- Instance of C12: ratio 2 (threshold 16) on a domain of 8 by 40 cells, with a
finer and a coarser level. -/
theorem define_builds_interpolators_or_dereferences_null_witness :
    ∃ r1, define (Example.env 2 4 false) (Example.run 2 2 1) (Example.grids 2)
        (some [Example.box 2 0 7]) (some [Example.box 2 0 3]) (1 / 2) 2 2
        (Example.slab 8 40) ⟨1⟩ ⟨2⟩ ⟨3⟩ 1 = Except.ok r1 ∧
      r1.op.m_homoInterp.isSome = true ∧ r1.op.m_nonHomoInterp.isSome = true :=
  (define_builds_interpolators_or_dereferences_null.1 2 (Example.env 2 4 false)
    (Example.run 2 2 1) (Example.grids 2) (some [Example.box 2 0 7])
    (some [Example.box 2 0 3]) (1 / 2) 2 2 (Example.slab 8 40) ⟨1⟩ ⟨2⟩ ⟨3⟩ 1 (Or.inr rfl)
    (by simp [inIntRange, s_minCoarsestDomainSize])
    (fun d => by
      simp only [inIntRange, Example.slab, Box.size]
      split <;> norm_num)).elim
    (fun r1 h => ⟨r1, h.1, h.2.2.2.2.2 (Or.inl rfl)
      ⟨0, 1, by simp [Example.slab, Box.size, s_minCoarsestDomainSize],
        by simp [Example.slab, Box.size, s_minCoarsestDomainSize]⟩⟩)

/-- C13 (behaviour of the code). Whenever the AMR `define` builds the
interpolators (a finer or coarser layout exists, the threshold test of the code
fails and no null pointer is dereferenced), the coarse layout it passes is
`coarsen(a_grids, a_refRatioFiner)` if `a_refRatio == 1` and `*a_gridsCoarser`
otherwise, and the ratio it passes is `a_refRatio` if `a_refRatioFiner == 1` and
`a_refRatioFiner` otherwise.  The threshold test fails when some direction of
the domain box has more cells than `a_refRatio*8`, as `int` values; for values
representable as `int` that is the comparison of the integers themselves.  With
`a_refRatio == 1` the ratio is `a_refRatioFiner`, the ratio of the coarse layout.
With `a_refRatio != 1` the ratio is `a_refRatio` only if `a_refRatioFiner` is 1
or equal to `a_refRatio`: for `a_refRatio = 4`, `a_refRatioFiner = 2` the
interpolators receive `*a_gridsCoarser` together with the ratio 2. -/
theorem define_interpolator_ratio_prefers_finer :
    (∀ (D : Nat) (env : Env D) (r : Run D) (a_grids : DisjointBoxLayout D)
      (a_gridsFiner a_gridsCoarser : Option (DisjointBoxLayout D)) (a_dxLevel : Real)
      ( a_refRatio : Int) (a_refRatioFiner : Int) (a_domain : ProblemDomain D)
      (a_bc : BoundaryCondition) (a_exchange : Copier) (a_cfregion : CFRegion)
      (a_nComps : Int) (cg : DisjointBoxLayout D),
      (a_gridsFiner.isSome = true ∨ a_gridsCoarser.isSome = true) →
      define.exceedsThreshold a_refRatio a_domain →
      (if a_refRatio = 1 then some (DisjointBoxLayout.coarsen a_grids a_refRatioFiner)
        else a_gridsCoarser) = some cg →
      ∃ r1 homo nonHomo, define env r a_grids a_gridsFiner a_gridsCoarser a_dxLevel
          a_refRatio a_refRatioFiner a_domain a_bc a_exchange a_cfregion a_nComps
          = Except.ok r1 ∧
        r1.op.m_homoInterp = some homo ∧ r1.op.m_nonHomoInterp = some nonHomo ∧
        r1.op.m_refToCoarser = a_refRatio ∧ r1.op.m_refToFiner = a_refRatioFiner ∧
        homo.coarseGrids = cg ∧ nonHomo.coarseGrids = cg ∧
        homo.refRatio = (if a_refRatioFiner = 1 then a_refRatio else a_refRatioFiner) ∧
        nonHomo.refRatio = homo.refRatio ∧
        (a_refRatio = 1 → homo.refRatio = a_refRatioFiner) ∧
        (a_refRatio ≠ 1 →
          (homo.refRatio = a_refRatio ↔
            (a_refRatioFiner = 1 ∨ a_refRatioFiner = a_refRatio)))) ∧
    (∀ (D : Nat) ( a_refRatio : Int) (a_domain : ProblemDomain D),
      inIntRange (a_refRatio * s_minCoarsestDomainSize) →
      (∀ d, inIntRange (a_domain.domainBox.size d)) →
      (define.exceedsThreshold a_refRatio a_domain ↔
        ∃ d, a_refRatio * s_minCoarsestDomainSize < a_domain.domainBox.size d)) ∧
    (∃ r1 homo nonHomo, define (Example.env 1 4 false) (Example.run 1 2 1) (Example.grids 1)
        (some [Example.box 1 0 15]) (some [Example.box 1 0 1]) (1 / 4) 4 2
        (Example.domain 1 64) ⟨1⟩ ⟨2⟩ ⟨3⟩ 1 = Except.ok r1 ∧
      r1.op.m_homoInterp = some homo ∧ r1.op.m_nonHomoInterp = some nonHomo ∧
      r1.op.m_refToCoarser = 4 ∧
      homo.coarseGrids = [Example.box 1 0 1] ∧ nonHomo.coarseGrids = [Example.box 1 0 1] ∧
      homo.refRatio = 2 ∧ nonHomo.refRatio = 2) := by
  have hgen : ∀ (D : Nat) (env : Env D) (r : Run D) (a_grids : DisjointBoxLayout D)
      (a_gridsFiner a_gridsCoarser : Option (DisjointBoxLayout D)) (a_dxLevel : Real)
      ( a_refRatio : Int) (a_refRatioFiner : Int) (a_domain : ProblemDomain D)
      (a_bc : BoundaryCondition) (a_exchange : Copier) (a_cfregion : CFRegion)
      (a_nComps : Int) (cg : DisjointBoxLayout D),
      (a_gridsFiner.isSome = true ∨ a_gridsCoarser.isSome = true) →
      define.exceedsThreshold a_refRatio a_domain →
      (if a_refRatio = 1 then some (DisjointBoxLayout.coarsen a_grids a_refRatioFiner)
        else a_gridsCoarser) = some cg →
      ∃ r1 homo nonHomo, define env r a_grids a_gridsFiner a_gridsCoarser a_dxLevel
          a_refRatio a_refRatioFiner a_domain a_bc a_exchange a_cfregion a_nComps
          = Except.ok r1 ∧
        r1.op.m_homoInterp = some homo ∧ r1.op.m_nonHomoInterp = some nonHomo ∧
        r1.op.m_refToCoarser = a_refRatio ∧ r1.op.m_refToFiner = a_refRatioFiner ∧
        homo.coarseGrids = cg ∧ nonHomo.coarseGrids = cg ∧
        homo.refRatio = (if a_refRatioFiner = 1 then a_refRatio else a_refRatioFiner) ∧
        nonHomo.refRatio = homo.refRatio ∧
        (a_refRatio = 1 → homo.refRatio = a_refRatioFiner) ∧
        (a_refRatio ≠ 1 →
          (homo.refRatio = a_refRatio ↔
            (a_refRatioFiner = 1 ∨ a_refRatioFiner = a_refRatio))) := by
    intro D env r a_grids a_gridsFiner a_gridsCoarser a_dxLevel a_refRatio a_refRatioFiner
      a_domain a_bc a_exchange a_cfregion a_nComps cg hany hbig hcg
    obtain ⟨r1, h1, h2, h3, _, h5, h6⟩ := define_builds env r a_grids a_gridsFiner
      a_gridsCoarser a_dxLevel a_refRatio a_refRatioFiner a_domain a_bc a_exchange a_cfregion
      a_nComps cg hany hbig hcg
    refine ⟨r1, _, _, h1, h2, h3, h5, h6, rfl, rfl, rfl, rfl, ?_, ?_⟩
    · intro hone
      show (if a_refRatioFiner = 1 then a_refRatio else a_refRatioFiner) = a_refRatioFiner
      by_cases hf : a_refRatioFiner = 1
      · rw [if_pos hf, hone, hf]
      · rw [if_neg hf]
    · intro _
      show (if a_refRatioFiner = 1 then a_refRatio else a_refRatioFiner) = a_refRatio ↔ _
      by_cases hf : a_refRatioFiner = 1
      · rw [if_pos hf]
        exact ⟨fun _ => Or.inl hf, fun _ => rfl⟩
      · rw [if_neg hf]
        exact ⟨fun h => Or.inr h, fun h => h.resolve_left hf⟩
  refine ⟨hgen, fun D a_refRatio a_domain hthr hsize =>
    define.exceedsThreshold_iff a_refRatio a_domain hthr hsize, ?_⟩
  obtain ⟨r1, homo, nonHomo, h1, h2, h3, h4, _, h6, h7, h8, h9, _, _⟩ :=
    hgen 1 (Example.env 1 4 false) (Example.run 1 2 1) (Example.grids 1)
      (some [Example.box 1 0 15]) (some [Example.box 1 0 1]) (1 / 4) 4 2
      (Example.domain 1 64) ⟨1⟩ ⟨2⟩ ⟨3⟩ 1 [Example.box 1 0 1] (Or.inl rfl)
      ⟨0, by
        simp only [Example.domain, Example.box, Box.size, s_minCoarsestDomainSize, wrapInt]
        decide⟩
      (by simp)
  have h8b : homo.refRatio = 2 := by rw [h8]; simp
  exact ⟨r1, homo, nonHomo, h1, h2, h3, h4, h6, h7, h8b, by rw [h9, h8b]⟩

/-- C14 (as amended). When the coarsenability assertion lets the call through,
`createCoarser` and `createCoarsened` return a defined field with the component
count and ghost vector of their argument.  `createCoarsened` with a ratio other
than 2 puts it on `coarsen(a_rhs.disjointBoxLayout(), a_refRat)` and leaves the
operator alone.  At ratio 2 both functions use the member `m_coarsenedMGrids`:
if it is empty they set it to the coarsening by 2 of the argument's layout and
define the field there; if it is not empty they define the field on the layout
it holds, whatever the layout of the argument, and leave the operator alone. -/
theorem createCoarser_defines_on_cached_layout {D : Nat} (env : Env D) (r : Run D)
    (a_fine a_rhs : LevelData D) (a_ghosted : Bool) ( a_refRat : Int)
    (hfine : env.NDEBUG = true ∨ a_fine.disjointBoxLayout.coarsenable 2 = true)
    (hrhs : env.NDEBUG = true ∨ a_rhs.disjointBoxLayout.coarsenable a_refRat = true) :
    (∃ a_coarse r1, createCoarser env r a_fine a_ghosted = Except.ok (a_coarse, r1) ∧
      a_coarse.isDefined = true ∧ a_coarse.nComp = a_fine.nComp ∧
      a_coarse.ghostVect = a_fine.ghostVect ∧ r1.log = r.log ∧
      a_coarse.disjointBoxLayout = r1.op.m_coarsenedMGrids ∧
      (r.op.m_coarsenedMGrids.length = 0 →
        a_coarse.disjointBoxLayout = a_fine.disjointBoxLayout.coarsen 2) ∧
      (r.op.m_coarsenedMGrids.length ≠ 0 →
        a_coarse.disjointBoxLayout = r.op.m_coarsenedMGrids ∧ r1 = r)) ∧
    (∃ a_lhs r1, createCoarsened env r a_rhs a_refRat = Except.ok (a_lhs, r1) ∧
      a_lhs.isDefined = true ∧ a_lhs.nComp = a_rhs.nComp ∧
      a_lhs.ghostVect = a_rhs.ghostVect ∧ r1.log = r.log ∧
      (a_refRat ≠ 2 →
        a_lhs.disjointBoxLayout = a_rhs.disjointBoxLayout.coarsen a_refRat ∧ r1 = r) ∧
      (a_refRat = 2 → r.op.m_coarsenedMGrids.length = 0 →
        a_lhs.disjointBoxLayout = a_rhs.disjointBoxLayout.coarsen 2 ∧
        r1.op.m_coarsenedMGrids = a_rhs.disjointBoxLayout.coarsen 2) ∧
      (a_refRat = 2 → r.op.m_coarsenedMGrids.length ≠ 0 →
        a_lhs.disjointBoxLayout = r.op.m_coarsenedMGrids ∧ r1 = r)) := by
  have hok1 : CH_assert env (a_fine.disjointBoxLayout.coarsenable 2) = true := by
    rcases hfine with h | h <;> simp [CH_assert, h]
  have hok2 : CH_assert env (a_rhs.disjointBoxLayout.coarsenable a_refRat) = true := by
    rcases hrhs with h | h <;> simp [CH_assert, h]
  constructor
  · unfold createCoarser
    rw [if_pos hok1]
    by_cases hc : r.op.m_coarsenedMGrids.length = 0
    · simp only []
      rw [if_pos hc]
      exact ⟨_, _, rfl, rfl, rfl, rfl, rfl, rfl, fun _ => rfl, fun h => absurd hc h⟩
    · simp only []
      rw [if_neg hc]
      exact ⟨_, _, rfl, rfl, rfl, rfl, rfl, rfl, fun h => absurd h hc, fun _ => ⟨rfl, rfl⟩⟩
  · unfold createCoarsened
    rw [if_pos hok2]
    by_cases h2 : a_refRat = 2
    · rw [if_pos h2]
      by_cases hc : r.op.m_coarsenedMGrids.length = 0
      · simp only []
        rw [if_pos hc]
        exact ⟨_, _, rfl, rfl, rfl, rfl, rfl, fun h => absurd h2 h,
          fun _ _ => ⟨rfl, rfl⟩, fun _ h => absurd hc h⟩
      · simp only []
        rw [if_neg hc]
        exact ⟨_, _, rfl, rfl, rfl, rfl, rfl, fun h => absurd h2 h,
          fun _ h => absurd h hc, fun _ _ => ⟨rfl, rfl⟩⟩
    · rw [if_neg h2]
      exact ⟨_, _, rfl, rfl, rfl, rfl, rfl, fun _ => ⟨rfl, rfl⟩,
        fun h => absurd h h2, fun h => absurd h h2⟩

/-- Instance of C14 (as amended): debug build, an operator whose cached layout
is empty, a field on the patch `[0..7]`, ratios 2 and 4. -/
theorem createCoarser_defines_on_cached_layout_witness :
    (∃ a_coarse r1, createCoarser (Example.env 1 4 false) (Example.run 1 2 1)
        (Example.fieldOn 1 [Example.box 1 0 7]) false = Except.ok (a_coarse, r1) ∧
      a_coarse.disjointBoxLayout
        = (Example.fieldOn 1 [Example.box 1 0 7]).disjointBoxLayout.coarsen 2) ∧
    (∃ a_lhs r1, createCoarsened (Example.env 1 4 false) (Example.run 1 2 1)
        (Example.fieldOn 1 [Example.box 1 0 7]) 4 = Except.ok (a_lhs, r1) ∧
      a_lhs.disjointBoxLayout
        = (Example.fieldOn 1 [Example.box 1 0 7]).disjointBoxLayout.coarsen 4) :=
  have hc2 : (Example.fieldOn 1 [Example.box 1 0 7]).disjointBoxLayout.coarsenable 2
      = true := by decide
  have hc4 : (Example.fieldOn 1 [Example.box 1 0 7]).disjointBoxLayout.coarsenable 4
      = true := by decide
  have h := createCoarser_defines_on_cached_layout (Example.env 1 4 false) (Example.run 1 2 1)
    (Example.fieldOn 1 [Example.box 1 0 7]) (Example.fieldOn 1 [Example.box 1 0 7]) false 4
    (Or.inr hc2) (Or.inr hc4)
  ⟨h.1.elim (fun c hc => hc.elim (fun r1 hr => ⟨c, r1, hr.1, hr.2.2.2.2.2.2.1 rfl⟩)),
    h.2.elim (fun c hc => hc.elim (fun r1 hr =>
      ⟨c, r1, hr.1, (hr.2.2.2.2.2.1 (by decide)).1⟩))⟩

/-- C14, counterexample. On an operator whose cached layout is empty,
`createCoarser` on a field with layout `[0..7]` followed by `createCoarser` on a
field with layout `[0..3]`, both coarsenable by 2: the second call defines its
result on `coarsen([0..7], 2)`, which is not `coarsen([0..3], 2)`. -/
theorem createCoarser_second_call_keeps_first_layout :
    ∃ c1 r1 c2 r2,
      (Example.fieldOn 1 [Example.box 1 0 7]).disjointBoxLayout.coarsenable 2 = true ∧
      (Example.fieldOn 1 [Example.box 1 0 3]).disjointBoxLayout.coarsenable 2 = true ∧
      createCoarser (Example.env 1 4 false) (Example.run 1 2 1)
        (Example.fieldOn 1 [Example.box 1 0 7]) false = Except.ok (c1, r1) ∧
      createCoarser (Example.env 1 4 false) r1
        (Example.fieldOn 1 [Example.box 1 0 3]) false = Except.ok (c2, r2) ∧
      c2.disjointBoxLayout
        = (Example.fieldOn 1 [Example.box 1 0 7]).disjointBoxLayout.coarsen 2 ∧
      c2.disjointBoxLayout
        ≠ (Example.fieldOn 1 [Example.box 1 0 3]).disjointBoxLayout.coarsen 2 := by
  have hc7 : (Example.fieldOn 1 [Example.box 1 0 7]).disjointBoxLayout.coarsenable 2
      = true := by decide
  have hc3 : (Example.fieldOn 1 [Example.box 1 0 3]).disjointBoxLayout.coarsenable 2
      = true := by decide
  have ha7 : CH_assert (Example.env 1 4 false)
      ((Example.fieldOn 1 [Example.box 1 0 7]).disjointBoxLayout.coarsenable 2) = true := by
    rw [hc7]; rfl
  have ha3 : CH_assert (Example.env 1 4 false)
      ((Example.fieldOn 1 [Example.box 1 0 3]).disjointBoxLayout.coarsenable 2) = true := by
    rw [hc3]; rfl
  refine ⟨LevelData.define (Example.env 1 4 false).uninitialised
      ((Example.fieldOn 1 [Example.box 1 0 7]).disjointBoxLayout.coarsen 2) 1 IntVect.Unit,
    { op := { Example.members 1 2 1 with
              m_coarsenedMGrids :=
                (Example.fieldOn 1 [Example.box 1 0 7]).disjointBoxLayout.coarsen 2 }
      log := [] },
    LevelData.define (Example.env 1 4 false).uninitialised
      ((Example.fieldOn 1 [Example.box 1 0 7]).disjointBoxLayout.coarsen 2) 1 IntVect.Unit,
    { op := { Example.members 1 2 1 with
              m_coarsenedMGrids :=
                (Example.fieldOn 1 [Example.box 1 0 7]).disjointBoxLayout.coarsen 2 }
      log := [] },
    hc7, hc3, ?_, ?_, rfl, ?_⟩
  · unfold createCoarser
    rw [if_pos ha7]
    rfl
  · unfold createCoarser
    rw [if_pos ha3]
    rfl
  · intro h
    have h2 := congrArg (fun l : DisjointBoxLayout 1 => l.map (fun b => b.bigEnd 0)) h
    revert h2
    decide

end HelmholtzAMRLevelOp

end Chombo
